import Mathlib

/-!
# Verification of the pika alert evaluation engine

Shallow embedding of `internal/service` alert evaluation code
(`AlertService` in the Go source: `checkAlert`, `fireAlert`, `resolveAlert`,
`CheckMetrics`, `CheckMonitorAlerts`, the certificate / service-down /
agent-offline checks, and `DeleteAlertConfig`) together with the data model
(`AlertConfig`, `AlertRules`, `AlertRecord`, `AlertState`, `Agent`,
`MonitorMetric`).

Modelling conventions:
- Go `float64` metric values are modelled as exact rationals `ℚ` (all
  comparisons in the source are order comparisons and subtractions on
  values where no rounding is relevant).
- Go `int64` millisecond timestamps and `int` second durations are `Int`;
  Go integer division `/` (truncation toward zero) is `Int.tdiv`.
- The in-memory state map `map[string]*AlertState` is an association list
  `List (String × AlertState)`; pointer mutation of a map entry is modelled
  by writing the final state back at its key.
- The persistence layer (`AlertRepo`, `AgentRepo`, `MetricRepo`) is not
  part of the provided sources; it is modelled from the spec as data inside
  `AlertEnv` plus failure flags (see the `Modelled from the spec` comments).
- Notification dispatch is fire-and-forget background work with no effect
  on alert state or records, so it is not modelled.
- Go string formatting (`fmt.Sprintf` with `%.2f` etc.) is abstracted by
  `toString` on the numeric arguments; only the structure of the message
  construction is kept, no claim depends on the exact rendering.
-/

/-- `models.Agent` (identity and liveness fields used by the alert engine). -/
structure Agent where
  id : String
  name : String
  lastSeenAt : Int
  deriving DecidableEq

/-- `models.AlertRules` (embedded rule set of an alert configuration). -/
structure AlertRules where
  cpuEnabled : Bool
  cpuThreshold : ℚ
  cpuDuration : Int
  memoryEnabled : Bool
  memoryThreshold : ℚ
  memoryDuration : Int
  diskEnabled : Bool
  diskThreshold : ℚ
  diskDuration : Int
  networkEnabled : Bool
  networkDuration : Int
  certEnabled : Bool
  certThreshold : ℚ
  serviceEnabled : Bool
  serviceDuration : Int
  agentOfflineEnabled : Bool
  agentOfflineDuration : Int
  deriving DecidableEq

/-- `models.AlertConfig`. -/
structure AlertConfig where
  id : String
  agentID : String
  name : String
  enabled : Bool
  createdAt : Int
  updatedAt : Int
  rules : AlertRules
  deriving DecidableEq

/-- `models.AlertRecord` (persisted alert history row). -/
structure AlertRecord where
  id : Int
  agentID : String
  configID : String
  configName : String
  alertType : String
  message : String
  threshold : ℚ
  actualValue : ℚ
  level : String
  status : String
  firedAt : Int
  resolvedAt : Int
  createdAt : Int
  updatedAt : Int
  deriving DecidableEq

/-- `models.AlertState` (in-memory per-key alert state). -/
structure AlertState where
  agentID : String
  configID : String
  alertType : String
  value : ℚ
  threshold : ℚ
  startTime : Int
  duration : Int
  lastCheckTime : Int
  isFiring : Bool
  lastRecordID : Int
  deriving DecidableEq

/-- `models.MonitorMetric` (latest monitor-check row; the fields read by the
certificate and service-down alert checks). -/
structure MonitorMetric where
  monitorId : String
  agentId : String
  target : String
  status : String
  timestamp : Int
  certExpiryTime : Int
  certDaysLeft : Int
  deriving DecidableEq

/-- The alert service state together with the repository data it reads and
writes. `states` is the in-memory `AlertService.states` map. The remaining
fields model the persistence layer, which is absent from the provided
sources. Modelled from the spec: `AlertRecord` rows are an auto-increment
table (`records`, `nextRecordID`); `configs` is the `alert_configs` table;
`agents` the agent identity store; `monitorsHTTP` / `monitorsAll` the
latest monitor metrics served by the metric repository. `createFails` /
`updateFails` model a persistence-layer outage on record insert / update;
`configsLoadFails` models a failure of the alert-config query. -/
structure AlertEnv where
  states : List (String × AlertState)
  records : List AlertRecord
  nextRecordID : Int
  createFails : Bool
  updateFails : Bool
  configs : List AlertConfig
  configsLoadFails : Bool
  agents : List Agent
  monitorsHTTP : List MonitorMetric
  monitorsAll : List MonitorMetric
  deriving DecidableEq

/-- Read the state map at a key (Go map read `s.states[key]`). -/
def getState : List (String × AlertState) → String → Option AlertState
  | [], _ => none
  | (k', v') :: rest, k => if k' = k then some v' else getState rest k

/-- Write a value at a key in the state map, replacing the existing entry if
present (Go map assignment `s.states[key] = state`). -/
def putState : List (String × AlertState) → String → AlertState → List (String × AlertState)
  | [], k, v => [(k, v)]
  | (k', v') :: rest, k, v =>
      if k' = k then (k, v) :: rest else (k', v') :: putState rest k v

/-- Modelled from the spec: `AlertRepo.CreateAlertRecord` appends a row with
the next auto-increment id, or fails (returning no id) when the persistence
layer is down. -/
def createAlertRecord (env : AlertEnv) (record : AlertRecord) : Option (Int × AlertEnv) :=
  if env.createFails then none
  else
    let rid := env.nextRecordID
    some (rid, { env with records := env.records ++ [{ record with id := rid }],
                          nextRecordID := env.nextRecordID + 1 })

/-- Modelled from the spec: `AlertRepo.GetLatestAlertRecord` returns the
most recent (greatest id) alert record for the given config id and alert
type, if any. -/
def latestStep (acc : Option AlertRecord) (r : AlertRecord) : Option AlertRecord :=
  match acc with
  | none => some r
  | some best => if best.id < r.id then some r else some best

def getLatestAlertRecord (env : AlertEnv) (configID alertType : String) : Option AlertRecord :=
  (env.records.filter fun r => r.configID == configID && r.alertType == alertType).foldl
    latestStep none

/-- Modelled from the spec: `AlertRepo.UpdateAlertRecord` replaces the row
with the same id, or leaves the table unchanged when the persistence layer
is down (the caller only logs the failure). -/
def updateAlertRecord (env : AlertEnv) (record : AlertRecord) : AlertEnv :=
  if env.updateFails then env
  else { env with records := env.records.map fun r => if r.id = record.id then record else r }

/-- Modelled from the spec: `AlertRepo.FindEnabledByAgentID` returns the
enabled alert configurations whose `AgentID` equals the argument. -/
def findEnabledByAgentID (env : AlertEnv) (agentID : String) : List AlertConfig :=
  env.configs.filter fun c => c.agentID == agentID && c.enabled

/-- `AlertService.calculateLevel`: severity from `value - threshold`. -/
def calculateLevel (value threshold : ℚ) : String :=
  let diff := value - threshold
  if diff < 20 then "info"
  else if diff < 50 then "warning"
  else "critical"

/-- `AlertService.calculateCertLevel`: severity from absolute days left. -/
def calculateCertLevel (daysLeft : ℚ) : String :=
  if daysLeft ≤ 7 then "critical"
  else if daysLeft ≤ 30 then "warning"
  else "info"

/-- `AlertService.buildAlertMessage` (numeric formatting abstracted by
`toString`). -/
def buildAlertMessage (state : AlertState) : String :=
  let alertTypeName :=
    if state.alertType = "cpu" then "CPU使用率"
    else if state.alertType = "memory" then "内存使用率"
    else if state.alertType = "disk" then "磁盘使用率"
    else if state.alertType = "network" then "网络连接"
    else state.alertType
  if state.alertType = "cert" then
    "HTTPS证书剩余天数" ++ toString state.value ++ "天，低于阈值" ++ toString state.threshold ++ "天"
  else if state.alertType = "service" then
    "服务持续离线" ++ toString state.duration ++ "秒"
  else
    alertTypeName ++ "持续" ++ toString state.duration ++ "秒超过" ++ toString state.threshold
      ++ "%，当前值" ++ toString state.value ++ "%"

/-- `AlertService.fireAlert`: build the firing record, persist it, and only
on success flip the in-memory flags; a persistence failure is logged and
the function returns with the state unchanged. Returns the updated state
and environment. -/
def fireAlert (config : AlertConfig) (agent : Agent) (state : AlertState) (now : Int)
    (env : AlertEnv) : AlertState × AlertEnv :=
  let record : AlertRecord :=
    { id := 0
      agentID := agent.id
      configID := config.id
      configName := config.name
      alertType := state.alertType
      message := buildAlertMessage state
      threshold := state.threshold
      actualValue := state.value
      level := calculateLevel state.value state.threshold
      status := "firing"
      firedAt := now
      resolvedAt := 0
      createdAt := now
      updatedAt := now }
  match createAlertRecord env record with
  | none => (state, env)
  | some (rid, env') => ({ state with isFiring := true, lastRecordID := rid }, env')

/-- `AlertService.resolveAlert`: look up the latest record for the config id
and alert type, mutate it to `resolved`, and unconditionally clear the
in-memory firing flags. -/
def resolveAlert (config : AlertConfig) (state : AlertState) (now : Int)
    (env : AlertEnv) : AlertState × AlertEnv :=
  let env' :=
    if 0 < state.lastRecordID then
      match getLatestAlertRecord env config.id state.alertType with
      | some existing =>
          updateAlertRecord env
            { existing with
                status := "resolved"
                actualValue := state.value
                resolvedAt := now
                updatedAt := now }
      | none => env
    else env
  ({ state with isFiring := false, lastRecordID := 0 }, env')

/-- The state-map key used by `AlertService.checkAlert`:
`config.AgentID:config.ID:alertType`. -/
def numKey (config : AlertConfig) (alertType : String) : String :=
  config.agentID ++ ":" ++ config.id ++ ":" ++ alertType

/-- `AlertService.checkAlert`: duration-gated threshold evaluation of one
numeric rule against the state map. -/
def checkAlert (config : AlertConfig) (agent : Agent) (alertType : String)
    (currentValue threshold : ℚ) (duration : Int) (now : Int) (env : AlertEnv) : AlertEnv :=
  let stateKey := numKey config alertType
  let state :=
    match getState env.states stateKey with
    | some st => st
    | none =>
        { agentID := config.agentID
          configID := config.id
          alertType := alertType
          value := 0
          threshold := threshold
          startTime := 0
          duration := duration
          lastCheckTime := 0
          isFiring := false
          lastRecordID := 0 }
  let state := { state with value := currentValue, lastCheckTime := now }
  if threshold ≤ currentValue then
    let state := if state.startTime = 0 then { state with startTime := now } else state
    let elapsedSeconds := (now - state.startTime).tdiv 1000
    if duration ≤ elapsedSeconds then
      if state.isFiring then
        { env with states := putState env.states stateKey state }
      else
        let (state', env') := fireAlert config agent state now env
        { env' with states := putState env'.states stateKey state' }
    else
      { env with states := putState env.states stateKey state }
  else
    let (state', env') :=
      if state.isFiring then resolveAlert config state now env else (state, env)
    let state' := { state' with startTime := 0 }
    { env' with states := putState env'.states stateKey state' }

/-- `AgentRepo.FindById`, modelled from the spec: lookup of the agent
identity row; a missing row is the lookup failure the service logs. -/
def findAgentById (env : AlertEnv) (agentID : String) : Option Agent :=
  env.agents.find? fun a => a.id == agentID

/-- `AlertService.CheckMetrics`: one evaluation pass for one agent's
cpu/memory/disk sample. Fetches the enabled global configurations and the
agent identity first; a failure of either load aborts the pass with an
error before any state is touched. -/
def CheckMetrics (agentID : String) (cpu memory disk : ℚ) (now : Int)
    (env : AlertEnv) : Except Unit AlertEnv :=
  if env.configsLoadFails then .error ()
  else
    match findAgentById env agentID with
    | none => .error ()
    | some agent =>
        let globalConfigs := findEnabledByAgentID env "global"
        .ok <| globalConfigs.foldl
          (fun e config =>
            let e :=
              if config.rules.cpuEnabled then
                checkAlert config agent "cpu" cpu config.rules.cpuThreshold
                  config.rules.cpuDuration now e
              else e
            let e :=
              if config.rules.memoryEnabled then
                checkAlert config agent "memory" memory config.rules.memoryThreshold
                  config.rules.memoryDuration now e
              else e
            if config.rules.diskEnabled then
              checkAlert config agent "disk" disk config.rules.diskThreshold
                config.rules.diskDuration now e
            else e)
          env

/-- The state-map key used by the certificate checks:
`config.AgentID:config.ID:cert:monitorId`. -/
def certKey (config : AlertConfig) (monitorId : String) : String :=
  config.agentID ++ ":" ++ config.id ++ ":cert:" ++ monitorId

/-- `AlertService.checkCertAlert`: certificate alerts have no duration gate;
if the state is not already firing, a record is created immediately with a
level computed from the absolute days left. -/
def checkCertAlert (config : AlertConfig) (agent : Agent) (monitor : MonitorMetric)
    (certDaysLeft : ℚ) (now : Int) (env : AlertEnv) : AlertEnv :=
  let stateKey := certKey config monitor.monitorId
  let state :=
    match getState env.states stateKey with
    | some st => st
    | none =>
        { agentID := agent.id
          configID := config.id
          alertType := "cert"
          value := 0
          threshold := config.rules.certThreshold
          startTime := 0
          duration := 0
          lastCheckTime := 0
          isFiring := false
          lastRecordID := 0 }
  let state := { state with value := certDaysLeft, lastCheckTime := now }
  if state.isFiring then
    { env with states := putState env.states stateKey state }
  else
    let record : AlertRecord :=
      { id := 0
        agentID := agent.id
        configID := config.id
        configName := config.name
        alertType := "cert"
        message := "监控项 " ++ monitor.target ++ " 的HTTPS证书剩余天数" ++ toString certDaysLeft
          ++ "天，低于阈值" ++ toString config.rules.certThreshold ++ "天"
        threshold := config.rules.certThreshold
        actualValue := certDaysLeft
        level := calculateCertLevel certDaysLeft
        status := "firing"
        firedAt := now
        resolvedAt := 0
        createdAt := now
        updatedAt := now }
    match createAlertRecord env record with
    | none => { env with states := putState env.states stateKey state }
    | some (rid, env') =>
        { env' with
            states := putState env'.states stateKey
              { state with isFiring := true, lastRecordID := rid } }

/-- `AlertService.resolveCertAlert`: nothing happens unless the state exists
and is firing; otherwise the latest `cert` record for the config is mutated
to `resolved` and the flags are cleared. -/
def resolveCertAlert (config : AlertConfig) (monitor : MonitorMetric)
    (certDaysLeft : ℚ) (now : Int) (env : AlertEnv) : AlertEnv :=
  let stateKey := certKey config monitor.monitorId
  match getState env.states stateKey with
  | none => env
  | some state =>
      if state.isFiring then
        let env' :=
          if 0 < state.lastRecordID then
            match getLatestAlertRecord env config.id "cert" with
            | some existing =>
                updateAlertRecord env
                  { existing with
                      status := "resolved"
                      actualValue := certDaysLeft
                      resolvedAt := now
                      updatedAt := now }
            | none => env
          else env
        { env' with
            states := putState env'.states stateKey
              { state with isFiring := false, lastRecordID := 0 } }
      else env

/-- `AlertService.checkCertificateAlerts`: scan the latest HTTP monitor
metrics; monitors without a certificate are skipped, a failing agent
identity lookup only skips that monitor, and the threshold decides between
the immediate fire path and the resolve path. -/
def checkCertificateAlerts (config : AlertConfig) (now : Int) (env : AlertEnv) : AlertEnv :=
  env.monitorsHTTP.foldl
    (fun e monitor =>
      if monitor.certExpiryTime = 0 then e
      else
        let certDaysLeft : ℚ := (monitor.certDaysLeft : ℚ)
        match findAgentById e monitor.agentId with
        | none => e
        | some agent =>
            if certDaysLeft ≤ config.rules.certThreshold ∧ 0 ≤ certDaysLeft then
              checkCertAlert config agent monitor certDaysLeft now e
            else
              resolveCertAlert config monitor certDaysLeft now e)
    env

/-- The state-map key used by the service-down checks:
`config.AgentID:config.ID:service:monitorId`. -/
def serviceKey (config : AlertConfig) (monitorId : String) : String :=
  config.agentID ++ ":" ++ config.id ++ ":service:" ++ monitorId

/-- `AlertService.fireServiceDownAlert`. -/
def fireServiceDownAlert (config : AlertConfig) (agent : Agent) (monitor : MonitorMetric)
    (state : AlertState) (now : Int) (env : AlertEnv) : AlertState × AlertEnv :=
  let record : AlertRecord :=
    { id := 0
      agentID := agent.id
      configID := config.id
      configName := config.name
      alertType := "service"
      message := "监控项 " ++ monitor.target ++ " 持续离线" ++ toString state.duration ++ "秒"
      threshold := 0
      actualValue := (state.duration : ℚ)
      level := "critical"
      status := "firing"
      firedAt := now
      resolvedAt := 0
      createdAt := now
      updatedAt := now }
  match createAlertRecord env record with
  | none => (state, env)
  | some (rid, env') => ({ state with isFiring := true, lastRecordID := rid }, env')

/-- `AlertService.resolveServiceDownAlert`. -/
def resolveServiceDownAlert (config : AlertConfig) (state : AlertState) (now : Int)
    (env : AlertEnv) : AlertState × AlertEnv :=
  let env' :=
    if 0 < state.lastRecordID then
      match getLatestAlertRecord env config.id "service" with
      | some existing =>
          updateAlertRecord env
            { existing with status := "resolved", resolvedAt := now, updatedAt := now }
      | none => env
    else env
  ({ state with isFiring := false, lastRecordID := 0 }, env')

/-- `AlertService.checkServiceDownAlerts`: duration is measured from the
monitor check's own timestamp (`state.startTime` is seeded with
`monitor.Timestamp`, not with the evaluation time). -/
def checkServiceDownAlerts (config : AlertConfig) (now : Int) (env : AlertEnv) : AlertEnv :=
  env.monitorsAll.foldl
    (fun e monitor =>
      match findAgentById e monitor.agentId with
      | none => e
      | some agent =>
          let stateKey := serviceKey config monitor.monitorId
          let state :=
            match getState e.states stateKey with
            | some st => st
            | none =>
                { agentID := agent.id
                  configID := config.id
                  alertType := "service"
                  value := 0
                  threshold := 0
                  startTime := 0
                  duration := config.rules.serviceDuration
                  lastCheckTime := 0
                  isFiring := false
                  lastRecordID := 0 }
          let state := { state with lastCheckTime := now }
          if monitor.status = "down" then
            let state :=
              if state.startTime = 0 then { state with startTime := monitor.timestamp }
              else state
            let elapsedSeconds := (now - state.startTime).tdiv 1000
            if config.rules.serviceDuration ≤ elapsedSeconds then
              if state.isFiring then
                { e with states := putState e.states stateKey state }
              else
                let (state', e') := fireServiceDownAlert config agent monitor state now e
                { e' with states := putState e'.states stateKey state' }
            else
              { e with states := putState e.states stateKey state }
          else
            let (state', e') :=
              if state.isFiring then resolveServiceDownAlert config state now e
              else (state, e)
            let state' := { state' with startTime := 0 }
            { e' with states := putState e'.states stateKey state' })
    env

/-- The state-map key used by the agent-offline checks:
`config.AgentID:config.ID:agent_offline:agentId`. -/
def offlineKey (config : AlertConfig) (agentId : String) : String :=
  config.agentID ++ ":" ++ config.id ++ ":agent_offline:" ++ agentId

/-- `AlertService.fireAgentOfflineAlert`: the record carries the measured
offline seconds as the actual value and the configured duration as the
threshold. -/
def fireAgentOfflineAlert (config : AlertConfig) (agent : Agent) (state : AlertState)
    (offlineSeconds : Int) (now : Int) (env : AlertEnv) : AlertState × AlertEnv :=
  let record : AlertRecord :=
    { id := 0
      agentID := agent.id
      configID := config.id
      configName := config.name
      alertType := "agent_offline"
      message := "探针 " ++ agent.name ++ " 已离线" ++ toString offlineSeconds ++ "秒，超过阈值"
        ++ toString state.duration ++ "秒"
      threshold := (state.duration : ℚ)
      actualValue := (offlineSeconds : ℚ)
      level := "critical"
      status := "firing"
      firedAt := now
      resolvedAt := 0
      createdAt := now
      updatedAt := now }
  match createAlertRecord env record with
  | none => (state, env)
  | some (rid, env') => ({ state with isFiring := true, lastRecordID := rid }, env')

/-- `AlertService.resolveAgentOfflineAlert`. -/
def resolveAgentOfflineAlert (config : AlertConfig) (state : AlertState) (now : Int)
    (env : AlertEnv) : AlertState × AlertEnv :=
  let env' :=
    if 0 < state.lastRecordID then
      match getLatestAlertRecord env config.id "agent_offline" with
      | some existing =>
          updateAlertRecord env
            { existing with status := "resolved", resolvedAt := now, updatedAt := now }
      | none => env
    else env
  ({ state with isFiring := false, lastRecordID := 0 }, env')

/-- `AlertService.checkAgentOfflineAlerts`: offline time is measured from
the agent's `lastSeenAt` timestamp, and the alert fires as soon as it
reaches the configured duration. -/
def checkAgentOfflineAlerts (config : AlertConfig) (now : Int) (env : AlertEnv) : AlertEnv :=
  env.agents.foldl
    (fun e agent =>
      let stateKey := offlineKey config agent.id
      let state :=
        match getState e.states stateKey with
        | some st => st
        | none =>
            { agentID := agent.id
              configID := config.id
              alertType := "agent_offline"
              value := 0
              threshold := 0
              startTime := 0
              duration := config.rules.agentOfflineDuration
              lastCheckTime := 0
              isFiring := false
              lastRecordID := 0 }
      let state := { state with lastCheckTime := now }
      let offlineSeconds := (now - agent.lastSeenAt).tdiv 1000
      if config.rules.agentOfflineDuration ≤ offlineSeconds then
        if state.isFiring then
          { e with states := putState e.states stateKey state }
        else
          let (state', e') := fireAgentOfflineAlert config agent state offlineSeconds now e
          { e' with states := putState e'.states stateKey state' }
      else
        if state.isFiring then
          let (state', e') := resolveAgentOfflineAlert config state now e
          { e' with states := putState e'.states stateKey state' }
        else
          { e with states := putState e.states stateKey state })
    env

/-- `AlertService.CheckMonitorAlerts`: one pass over the enabled global
configurations, running the certificate, service-down, and agent-offline
checks; a failure to load the configurations aborts the pass, while
failures inside the per-rule checks are logged and the pass continues. -/
def CheckMonitorAlerts (now : Int) (env : AlertEnv) : Except Unit AlertEnv :=
  if env.configsLoadFails then .error ()
  else
    let globalConfigs := findEnabledByAgentID env "global"
    .ok <| globalConfigs.foldl
      (fun e config =>
        let e := if config.rules.certEnabled then checkCertificateAlerts config now e else e
        let e := if config.rules.serviceEnabled then checkServiceDownAlerts config now e else e
        if config.rules.agentOfflineEnabled then checkAgentOfflineAlerts config now e else e)
      env

/-- `AlertService.DeleteAlertConfig`: purge every in-memory state entry
whose `ConfigID` is the deleted id, then delete the configuration row
(the row deletion is modelled from the spec: the configuration disappears
from the store read by subsequent passes). -/
def DeleteAlertConfig (id : String) (env : AlertEnv) : AlertEnv :=
  let env := { env with states := env.states.filter fun p => p.2.configID != id }
  { env with configs := env.configs.filter fun c => c.id != id }

/-- Inputs of one numeric-metrics evaluation tick. -/
structure MetricsTick where
  agentID : String
  cpu : ℚ
  memory : ℚ
  disk : ℚ
  now : Int
  deriving DecidableEq

/-- One scheduler tick of the alert engine: either a numeric metrics pass,
a monitor-alerts pass, or a change of the externally owned data the passes
read (agents and latest monitor metrics), modelling the rest of the system
writing to the store between ticks. -/
inductive Tick where
  | metrics : MetricsTick → Tick
  | monitors : Int → Tick
  | observe : List Agent → List MonitorMetric → List MonitorMetric → Tick
  deriving DecidableEq

/-- Run one tick; an aborted pass leaves the environment unchanged (the Go
scheduler logs the error and keeps the shared state as it was). -/
def runTick (env : AlertEnv) : Tick → AlertEnv
  | .metrics t =>
      match CheckMetrics t.agentID t.cpu t.memory t.disk t.now env with
      | .ok e => e
      | .error _ => env
  | .monitors now =>
      match CheckMonitorAlerts now env with
      | .ok e => e
      | .error _ => env
  | .observe agents mHTTP mAll =>
      { env with agents := agents, monitorsHTTP := mHTTP, monitorsAll := mAll }

/-- Run a sequence of scheduler ticks. -/
def runTicks (ticks : List Tick) (env : AlertEnv) : AlertEnv :=
  ticks.foldl runTick env

/-! ## Basic lemmas about the state map and Go time arithmetic -/

theorem getState_putState_self (sts : List (String × AlertState)) (k : String) (v : AlertState) :
    getState (putState sts k v) k = some v := by
  induction sts with
  | nil => simp [putState, getState]
  | cons p rest ih =>
    obtain ⟨k', v'⟩ := p
    by_cases h : k' = k
    · simp [putState, h, getState]
    · simp [putState, h, getState, ih]

theorem getState_putState_ne (sts : List (String × AlertState)) (k k' : String) (v : AlertState)
    (h : k' ≠ k) : getState (putState sts k v) k' = getState sts k' := by
  induction sts with
  | nil => simp [putState, getState, Ne.symm h]
  | cons p rest ih =>
    obtain ⟨k'', v''⟩ := p
    by_cases h2 : k'' = k
    · subst h2
      simp [putState, getState, Ne.symm h]
    · simp [putState, h2, getState, ih]

theorem getState_putState_isSome (sts : List (String × AlertState)) (k k' : String)
    (v : AlertState) (h : (getState sts k').isSome) :
    (getState (putState sts k v) k').isSome := by
  by_cases he : k' = k
  · subst he; simp [getState_putState_self]
  · rw [getState_putState_ne sts k k' v he]; exact h

/-- Go `elapsedSeconds := (now - startTime) / 1000; elapsedSeconds >= duration`
is the same as `startTime + 1000 * duration ≤ now` when the elapsed
millisecond count is nonnegative. -/
theorem duration_reached_iff {t0 t : Int} (d : Int) (h : t0 ≤ t) :
    d ≤ (t - t0).tdiv 1000 ↔ t0 + 1000 * d ≤ t := by
  rw [Int.tdiv_eq_ediv (by omega) (by norm_num)]
  rw [Int.le_ediv_iff_mul_le (by norm_num : (0 : Int) < 1000)]
  omega

/-- A fold preserves any invariant preserved by each step on the folded
list. -/
theorem foldl_preserve {α β : Type} (P : β → Prop) (f : β → α → β) (l : List α)
    (h : ∀ a ∈ l, ∀ b, P b → P (f b a)) : ∀ b, P b → P (l.foldl f b) := by
  induction l with
  | nil => intro b hb; simpa using hb
  | cons x xs ih =>
    intro b hb
    simp only [List.foldl_cons]
    exact ih (fun a ha b' hb' => h a (List.mem_cons_of_mem x ha) b' hb') (f b x)
      (h x (List.mem_cons_self x xs) b hb)

/-! ## Branch equations for `checkAlert` -/

/-- Breaching evaluation on an existing, already-started, not-yet-reached
state: only `value` and `lastCheckTime` change. -/
theorem checkAlert_breach_notReached (config : AlertConfig) (agent : Agent) (alertType : String)
    (v thr : ℚ) (d now : Int) (env : AlertEnv) (s : AlertState)
    (hs : getState env.states (numKey config alertType) = some s)
    (h0 : s.startTime ≠ 0) (hv : thr ≤ v)
    (hlt : (now - s.startTime).tdiv 1000 < d) :
    checkAlert config agent alertType v thr d now env =
      { env with
          states := putState env.states (numKey config alertType)
            { s with value := v, lastCheckTime := now } } := by
  simp only [checkAlert, hs]
  rw [if_pos hv, if_neg h0, if_neg (not_le.mpr hlt)]

/-- Breaching evaluation on an already-firing state: no record is written,
only `value` and `lastCheckTime` change. -/
theorem checkAlert_breach_firing (config : AlertConfig) (agent : Agent) (alertType : String)
    (v thr : ℚ) (d now : Int) (env : AlertEnv) (s : AlertState)
    (hs : getState env.states (numKey config alertType) = some s)
    (h0 : s.startTime ≠ 0) (hf : s.isFiring = true) (hv : thr ≤ v) :
    checkAlert config agent alertType v thr d now env =
      { env with
          states := putState env.states (numKey config alertType)
            { s with value := v, lastCheckTime := now } } := by
  simp only [checkAlert, hs]
  rw [if_pos hv, if_neg h0]
  split
  · simp [hf]
  · rfl

/-- First breaching evaluation on a fresh key with a positive duration:
the state is created with `startTime = now` and nothing fires. -/
theorem checkAlert_fresh_breach (config : AlertConfig) (agent : Agent) (alertType : String)
    (v thr : ℚ) (d now : Int) (env : AlertEnv)
    (hs : getState env.states (numKey config alertType) = none)
    (hv : thr ≤ v) (hd : 0 < d) :
    checkAlert config agent alertType v thr d now env =
      { env with
          states := putState env.states (numKey config alertType)
            { agentID := config.agentID
              configID := config.id
              alertType := alertType
              value := v
              threshold := thr
              startTime := now
              duration := d
              lastCheckTime := now
              isFiring := false
              lastRecordID := 0 } } := by
  simp only [checkAlert, hs]
  rw [if_pos hv]
  simp only [if_true, sub_self, Int.zero_tdiv]
  rw [if_neg (by omega : ¬ d ≤ (0 : Int))]

/-- Breaching evaluation reaching the duration gate on a non-firing state
with a healthy persistence layer: exactly one firing record is appended and
the state flips to firing. -/
theorem checkAlert_fires (config : AlertConfig) (agent : Agent) (alertType : String)
    (v thr : ℚ) (d now : Int) (env : AlertEnv) (s : AlertState)
    (hs : getState env.states (numKey config alertType) = some s)
    (h0 : s.startTime ≠ 0) (hf : s.isFiring = false) (hv : thr ≤ v)
    (hge : d ≤ (now - s.startTime).tdiv 1000) (hcf : env.createFails = false) :
    ∃ r : AlertRecord,
      checkAlert config agent alertType v thr d now env =
        { env with
            states := putState env.states (numKey config alertType)
              { s with
                  value := v
                  lastCheckTime := now
                  isFiring := true
                  lastRecordID := env.nextRecordID }
            records := env.records ++ [r]
            nextRecordID := env.nextRecordID + 1 } ∧
      r.id = env.nextRecordID ∧ r.agentID = agent.id ∧ r.configID = config.id ∧
      r.alertType = s.alertType ∧ r.status = "firing" ∧ r.firedAt = now ∧
      r.threshold = s.threshold ∧ r.actualValue = v ∧
      r.level = calculateLevel v s.threshold := by
  refine ⟨{ id := env.nextRecordID
            agentID := agent.id
            configID := config.id
            configName := config.name
            alertType := s.alertType
            message := buildAlertMessage { s with value := v, lastCheckTime := now }
            threshold := s.threshold
            actualValue := v
            level := calculateLevel v s.threshold
            status := "firing"
            firedAt := now
            resolvedAt := 0
            createdAt := now
            updatedAt := now }, ?_, rfl, rfl, rfl, rfl, rfl, rfl, rfl, rfl, rfl⟩
  simp only [checkAlert, hs]
  rw [if_pos hv, if_neg h0, if_pos hge]
  simp only [hf, Bool.false_eq_true, if_false, fireAlert, createAlertRecord, hcf,
    Bool.false_eq_true, if_false]

/-- Below-threshold evaluation on a non-firing state: no record is touched,
`startTime` is reset. -/
theorem checkAlert_below_notFiring (config : AlertConfig) (agent : Agent) (alertType : String)
    (v thr : ℚ) (d now : Int) (env : AlertEnv) (s : AlertState)
    (hs : getState env.states (numKey config alertType) = some s)
    (hf : s.isFiring = false) (hv : v < thr) :
    checkAlert config agent alertType v thr d now env =
      { env with
          states := putState env.states (numKey config alertType)
            { s with value := v, lastCheckTime := now, startTime := 0 } } := by
  simp only [checkAlert, hs]
  rw [if_neg (not_le.mpr hv)]
  simp only [hf, Bool.false_eq_true, if_false]

/-- Below-threshold evaluation on a firing state whose open record is the
latest one for its config and type: the open record (and no other row) is
mutated to `resolved` and the state flips back, with `startTime` reset. -/
theorem checkAlert_resolves (config : AlertConfig) (agent : Agent) (alertType : String)
    (v thr : ℚ) (d now : Int) (env : AlertEnv) (s : AlertState) (ex : AlertRecord)
    (hs : getState env.states (numKey config alertType) = some s)
    (hf : s.isFiring = true) (hv : v < thr) (hid : 0 < s.lastRecordID)
    (hlatest : getLatestAlertRecord env config.id s.alertType = some ex)
    (huf : env.updateFails = false) :
    checkAlert config agent alertType v thr d now env =
      { env with
          states := putState env.states (numKey config alertType)
            { s with
                value := v
                lastCheckTime := now
                startTime := 0
                isFiring := false
                lastRecordID := 0 }
          records := env.records.map fun r =>
            if r.id = ex.id then
              { ex with status := "resolved", actualValue := v, resolvedAt := now,
                        updatedAt := now }
            else r } := by
  simp only [checkAlert, hs]
  rw [if_neg (not_le.mpr hv)]
  simp only [hf, if_true, resolveAlert, hid, if_pos hid, hlatest, updateAlertRecord, huf,
    Bool.false_eq_true, if_false]

/-- `fireAlert` with a failing persistence layer returns without flipping
the in-memory state: the firing flag is not set and no record is written. -/
theorem fireAlert_persistFails (config : AlertConfig) (agent : Agent) (state : AlertState)
    (now : Int) (env : AlertEnv) (hcf : env.createFails = true) :
    fireAlert config agent state now env = (state, env) := by
  simp [fireAlert, createAlertRecord, hcf]

/-- `resolveAlert` with a failing persistence layer still clears the
in-memory firing flag and record id, leaving the record table unchanged. -/
theorem resolveAlert_persistFails (config : AlertConfig) (state : AlertState)
    (now : Int) (env : AlertEnv) (huf : env.updateFails = true) :
    resolveAlert config state now env =
      ({ state with isFiring := false, lastRecordID := 0 }, env) := by
  simp only [resolveAlert]
  split
  · cases hg : getLatestAlertRecord env config.id state.alertType with
    | none => simp
    | some ex => simp [hg, updateAlertRecord, huf]
  · rfl

/-! ## C1: duration-gated firing over a sequence of evaluation calls -/

/-- A sequence of `checkAlert` evaluation calls for one rule of one
configuration; each element is `(evaluation time, observed value)`. -/
def runNumChecks (config : AlertConfig) (agent : Agent) (alertType : String) (threshold : ℚ)
    (duration : Int) (evals : List (Int × ℚ)) (env : AlertEnv) : AlertEnv :=
  evals.foldl (fun e p => checkAlert config agent alertType p.2 threshold duration p.1 e) env

/-- Breaching evaluations strictly before `startTime + duration` keep the
state un-fired and write nothing but the state map. -/
theorem runNumChecks_breach_noFire (config : AlertConfig) (agent : Agent) (alertType : String)
    (thr : ℚ) (d t0 : Int) (evals : List (Int × ℚ)) :
    ∀ (env : AlertEnv) (s : AlertState),
      getState env.states (numKey config alertType) = some s →
      s.isFiring = false → s.startTime = t0 → t0 ≠ 0 →
      (∀ p ∈ evals, thr ≤ p.2 ∧ t0 ≤ p.1 ∧ p.1 < t0 + 1000 * d) →
      ∃ sts' s',
        runNumChecks config agent alertType thr d evals env = { env with states := sts' } ∧
        getState sts' (numKey config alertType) = some s' ∧
        s'.isFiring = false ∧ s'.startTime = t0 := by
  induction evals with
  | nil =>
    intro env s hs hf h0 _ _
    exact ⟨env.states, s, rfl, hs, hf, h0⟩
  | cons p rest ih =>
    intro env s hs hf h0 ht0 hev
    obtain ⟨hv, hle, hlt⟩ := hev p (List.mem_cons_self p rest)
    have hstep := checkAlert_breach_notReached config agent alertType p.2 thr d p.1 env s hs
      (h0 ▸ ht0) hv
      (by
        rw [← not_le]
        intro hcon
        rw [h0] at hcon
        exact absurd ((duration_reached_iff d hle).mp hcon) (by omega))
    obtain ⟨sts', s', hrun, hgs, hf', h0'⟩ := ih
      { env with
          states := putState env.states (numKey config alertType)
            { s with value := p.2, lastCheckTime := p.1 } }
      { s with value := p.2, lastCheckTime := p.1 }
      (getState_putState_self _ _ _) (by simpa using hf) (by simpa using h0)
      ht0 (fun q hq => hev q (List.mem_cons_of_mem p hq))
    refine ⟨sts', s', ?_, hgs, hf', h0'⟩
    simp only [runNumChecks, List.foldl_cons] at hrun ⊢
    rw [hstep]
    exact hrun

/-- Re-evaluating an already-firing state with still-breaching values never
writes another record: only the state map changes. -/
theorem runNumChecks_breach_firing (config : AlertConfig) (agent : Agent) (alertType : String)
    (thr : ℚ) (d : Int) (evals : List (Int × ℚ)) :
    ∀ (env : AlertEnv) (s : AlertState),
      getState env.states (numKey config alertType) = some s →
      s.isFiring = true → s.startTime ≠ 0 →
      (∀ p ∈ evals, thr ≤ p.2) →
      ∃ sts' s',
        runNumChecks config agent alertType thr d evals env = { env with states := sts' } ∧
        getState sts' (numKey config alertType) = some s' ∧
        s'.isFiring = true := by
  induction evals with
  | nil =>
    intro env s hs hf _ _
    exact ⟨env.states, s, rfl, hs, hf⟩
  | cons p rest ih =>
    intro env s hs hf h0 hev
    have hstep := checkAlert_breach_firing config agent alertType p.2 thr d p.1 env s hs h0 hf
      (hev p (List.mem_cons_self p rest))
    obtain ⟨sts', s', hrun, hgs, hf'⟩ := ih
      { env with
          states := putState env.states (numKey config alertType)
            { s with value := p.2, lastCheckTime := p.1 } }
      { s with value := p.2, lastCheckTime := p.1 }
      (getState_putState_self _ _ _) (by simpa using hf) (by simpa using h0)
      (fun q hq => hev q (List.mem_cons_of_mem p hq))
    refine ⟨sts', s', ?_, hgs, hf'⟩
    simp only [runNumChecks, List.foldl_cons] at hrun ⊢
    rw [hstep]
    exact hrun

/-- C1: for a continuously breaching sequence of evaluation calls on one
(agent, config, signal) alert state, the engine transitions to firing at
the first evaluation whose time reaches `startTime + duration`, creates
exactly one firing `AlertRecord` for the breach episode, and re-evaluating
the already-firing state with still-breaching values creates no second
record. -/
theorem numericAlert_durationGate_oneRecord
    (config : AlertConfig) (agent : Agent) (alertType : String) (thr : ℚ) (d : Int)
    (t0 : Int) (v0 : ℚ) (pre : List (Int × ℚ)) (tf : Int) (vf : ℚ) (post : List (Int × ℚ))
    (env : AlertEnv)
    (hd : 0 < d) (ht0 : 0 < t0) (hv0 : thr ≤ v0)
    (hpre : ∀ p ∈ pre, thr ≤ p.2 ∧ t0 ≤ p.1 ∧ p.1 < t0 + 1000 * d)
    (htf : t0 + 1000 * d ≤ tf) (hvf : thr ≤ vf)
    (hpost : ∀ p ∈ post, thr ≤ p.2)
    (hs : getState env.states (numKey config alertType) = none)
    (hcf : env.createFails = false) :
    (runNumChecks config agent alertType thr d ((t0, v0) :: pre) env).records = env.records ∧
    (∃ s, getState (runNumChecks config agent alertType thr d ((t0, v0) :: pre) env).states
        (numKey config alertType) = some s ∧ s.isFiring = false) ∧
    ∃ r, (runNumChecks config agent alertType thr d (((t0, v0) :: pre) ++ (tf, vf) :: post)
        env).records = env.records ++ [r] ∧
      r.status = "firing" ∧ r.firedAt = tf ∧
      ∃ s, getState (runNumChecks config agent alertType thr d
          (((t0, v0) :: pre) ++ (tf, vf) :: post) env).states
          (numKey config alertType) = some s ∧ s.isFiring = true := by
  have h1 := checkAlert_fresh_breach config agent alertType v0 thr d t0 env hs hv0 hd
  obtain ⟨stsB, sB, hrunB, hgsB, hfB, h0B⟩ :=
    runNumChecks_breach_noFire config agent alertType thr d t0 pre
      (checkAlert config agent alertType v0 thr d t0 env)
      { agentID := config.agentID
        configID := config.id
        alertType := alertType
        value := v0
        threshold := thr
        startTime := t0
        duration := d
        lastCheckTime := t0
        isFiring := false
        lastRecordID := 0 }
      (by rw [h1]; exact getState_putState_self _ _ _)
      rfl rfl (by omega) hpre
  have hpreRun : runNumChecks config agent alertType thr d ((t0, v0) :: pre) env =
      { checkAlert config agent alertType v0 thr d t0 env with states := stsB } := by
    simp only [runNumChecks, List.foldl_cons] at hrunB ⊢
    exact hrunB
  have hgs1 : getState (runNumChecks config agent alertType thr d ((t0, v0) :: pre) env).states
      (numKey config alertType) = some sB := by
    rw [hpreRun]; exact hgsB
  have hrec1 : (runNumChecks config agent alertType thr d ((t0, v0) :: pre) env).records
      = env.records := by
    rw [hpreRun, h1]
  have hcf1 : (runNumChecks config agent alertType thr d ((t0, v0) :: pre) env).createFails
      = false := by
    rw [hpreRun, h1]; exact hcf
  obtain ⟨r, hfire, hrid, hragent, hrcfg, hrtype, hrstatus, hrfired, hrthr, hrval, hrlevel⟩ :=
    checkAlert_fires config agent alertType vf thr d tf
      (runNumChecks config agent alertType thr d ((t0, v0) :: pre) env) sB hgs1
      (by rw [h0B]; omega) hfB hvf
      (by rw [h0B]; exact (duration_reached_iff d (by omega)).mpr htf)
      hcf1
  obtain ⟨stsD, sD, hrunD, hgsD, hfD⟩ :=
    runNumChecks_breach_firing config agent alertType thr d post
      (checkAlert config agent alertType vf thr d tf
        (runNumChecks config agent alertType thr d ((t0, v0) :: pre) env))
      { sB with
          value := vf
          lastCheckTime := tf
          isFiring := true
          lastRecordID :=
            (runNumChecks config agent alertType thr d ((t0, v0) :: pre) env).nextRecordID }
      (by rw [hfire]; exact getState_putState_self _ _ _)
      rfl
      (by show sB.startTime ≠ 0; rw [h0B]; omega)
      hpost
  have hfull : runNumChecks config agent alertType thr d
      (((t0, v0) :: pre) ++ (tf, vf) :: post) env =
      { checkAlert config agent alertType vf thr d tf
          (runNumChecks config agent alertType thr d ((t0, v0) :: pre) env) with
        states := stsD } := by
    simp only [runNumChecks, List.foldl_append, List.foldl_cons] at hrunD ⊢
    exact hrunD
  refine ⟨hrec1, ⟨sB, hgs1, hfB⟩, r, ?_, hrstatus, hrfired, sD, ?_, hfD⟩
  · rw [hfull, hfire]
    show (runNumChecks config agent alertType thr d ((t0, v0) :: pre) env).records ++ [r]
      = env.records ++ [r]
    rw [hrec1]
  · rw [hfull]
    exact hgsD

/-- A rule set with every alert kind disabled (fixture for concrete runs). -/
def rulesOff : AlertRules :=
  { cpuEnabled := false, cpuThreshold := 0, cpuDuration := 0
    memoryEnabled := false, memoryThreshold := 0, memoryDuration := 0
    diskEnabled := false, diskThreshold := 0, diskDuration := 0
    networkEnabled := false, networkDuration := 0
    certEnabled := false, certThreshold := 0
    serviceEnabled := false, serviceDuration := 0
    agentOfflineEnabled := false, agentOfflineDuration := 0 }

/-- A global alert configuration fixture. -/
def cfgC1 : AlertConfig :=
  { id := "c1", agentID := "global", name := "g", enabled := true
    createdAt := 0, updatedAt := 0, rules := rulesOff }

/-- An agent fixture. -/
def agentA : Agent := { id := "a1", name := "agent-1", lastSeenAt := 0 }

/-- An empty service environment fixture. -/
def envEmpty : AlertEnv :=
  { states := [], records := [], nextRecordID := 1, createFails := false
    updateFails := false, configs := [], configsLoadFails := false
    agents := [], monitorsHTTP := [], monitorsAll := [] }

/-- Witness for C1: cpu threshold 80, duration 60 s, breach start at
t = 1000 ms; a check at 30000 ms does not fire, the check at 61001 ms
(the first at or past 1000 + 60000 ms) fires exactly one record, and a
later breaching check at 70000 ms adds none. -/
theorem numericAlert_durationGate_oneRecord_witness :
    (runNumChecks cfgC1 agentA "cpu" 80 60 ((1000, 90) :: [(30000, 90)]) envEmpty).records
        = envEmpty.records ∧
    (∃ s, getState
        (runNumChecks cfgC1 agentA "cpu" 80 60 ((1000, 90) :: [(30000, 90)]) envEmpty).states
        (numKey cfgC1 "cpu") = some s ∧ s.isFiring = false) ∧
    ∃ r, (runNumChecks cfgC1 agentA "cpu" 80 60
        (((1000, 90) :: [(30000, 90)]) ++ (61001, 95) :: [(70000, 97)]) envEmpty).records
        = envEmpty.records ++ [r] ∧
      r.status = "firing" ∧ r.firedAt = 61001 ∧
      ∃ s, getState (runNumChecks cfgC1 agentA "cpu" 80 60
          (((1000, 90) :: [(30000, 90)]) ++ (61001, 95) :: [(70000, 97)]) envEmpty).states
          (numKey cfgC1 "cpu") = some s ∧ s.isFiring = true :=
  numericAlert_durationGate_oneRecord cfgC1 agentA "cpu" 80 60 1000 90 [(30000, 90)]
    61001 95 [(70000, 97)] envEmpty (by norm_num) (by norm_num) (by norm_num)
    (by decide) (by norm_num) (by norm_num) (by decide) rfl rfl

/-! ## C7: severity level of numeric fire transitions -/

/-- C7: every numeric fire transition creates a record whose level is
computed from `value - threshold`: info below 20, warning in [20, 50),
critical at 50 and above. -/
theorem fireAlert_level_from_delta (config : AlertConfig) (agent : Agent) (s : AlertState)
    (now : Int) (env : AlertEnv) (hcf : env.createFails = false) :
    ∃ r, (fireAlert config agent s now env).2.records = env.records ++ [r] ∧
      r.status = "firing" ∧ r.level = calculateLevel s.value s.threshold ∧
      (s.value - s.threshold < 20 → r.level = "info") ∧
      (20 ≤ s.value - s.threshold → s.value - s.threshold < 50 → r.level = "warning") ∧
      (50 ≤ s.value - s.threshold → r.level = "critical") := by
  refine ⟨{ id := env.nextRecordID
            agentID := agent.id
            configID := config.id
            configName := config.name
            alertType := s.alertType
            message := buildAlertMessage s
            threshold := s.threshold
            actualValue := s.value
            level := calculateLevel s.value s.threshold
            status := "firing"
            firedAt := now
            resolvedAt := 0
            createdAt := now
            updatedAt := now }, ?_, rfl, rfl, ?_, ?_, ?_⟩
  · simp [fireAlert, createAlertRecord, hcf]
  · intro h; simp [calculateLevel, h]
  · intro h1 h2; simp [calculateLevel, not_lt.mpr h1, h2]
  · intro h
    have h1 : ¬ s.value - s.threshold < 20 := by linarith
    have h2 : ¬ s.value - s.threshold < 50 := by linarith
    simp [calculateLevel, h1, h2]

/-- Witness for C7: value 95, threshold 80 gives delta 15, an info level. -/
theorem fireAlert_level_from_delta_witness :
    ∃ r, (fireAlert cfgC1 agentA
        { agentID := "global", configID := "c1", alertType := "cpu", value := 95, threshold := 80
          startTime := 1000, duration := 60, lastCheckTime := 2000, isFiring := false
          lastRecordID := 0 } 2000 envEmpty).2.records = envEmpty.records ++ [r] ∧
      r.status = "firing" ∧ r.level = calculateLevel 95 80 ∧
      ((95 : ℚ) - 80 < 20 → r.level = "info") ∧
      ((20 : ℚ) ≤ 95 - 80 → (95 : ℚ) - 80 < 50 → r.level = "warning") ∧
      ((50 : ℚ) ≤ 95 - 80 → r.level = "critical") :=
  fireAlert_level_from_delta cfgC1 agentA
    { agentID := "global", configID := "c1", alertType := "cpu", value := 95, threshold := 80
      startTime := 1000, duration := 60, lastCheckTime := 2000, isFiring := false
      lastRecordID := 0 } 2000 envEmpty rfl

/-! ## C2: behaviour of the in-memory flag under persistence failures -/

/-- A state one firing evaluation away from its duration gate. -/
def stC2 : AlertState :=
  { agentID := "global", configID := "c1", alertType := "cpu", value := 90, threshold := 80
    startTime := 1000, duration := 60, lastCheckTime := 0, isFiring := false
    lastRecordID := 0 }

/-- Environment with a failing record-insert path. -/
def envC2 : AlertEnv :=
  { envEmpty with states := [(numKey cfgC1 "cpu", stC2)], createFails := true }

/-- A firing state owning record 1. -/
def stFiringC2 : AlertState := { stC2 with isFiring := true, lastRecordID := 1 }

/-- Environment with a failing record-update path. -/
def envUFC2 : AlertEnv :=
  { envEmpty with states := [(numKey cfgC1 "cpu", stFiringC2)], updateFails := true }

/-- Counterexample to C2: a fire transition (sustained breach, value 95
over threshold 80 for 399 s with a 60 s gate) whose record insert fails
leaves `isFiring = false` — the flag is not set to true as claimed. -/
theorem fireFlag_notFlipped_onPersistFailure_cex :
    (getState (checkAlert cfgC1 agentA "cpu" 95 80 60 400000 envC2).states
        (numKey cfgC1 "cpu")).map AlertState.isFiring = some false ∧
    (checkAlert cfgC1 agentA "cpu" 95 80 60 400000 envC2).records = [] ∧
    envC2.createFails = true := by decide

/-- C2 (amended): a persistence failure during a resolve transition still
flips `isFiring` to false with the record table untouched, while a
persistence failure during a fire transition returns before the flag is
set, leaving state and records unchanged. -/
theorem persistFailure_flag_behavior (config : AlertConfig) (agent : Agent) (s : AlertState)
    (now : Int) (env : AlertEnv) :
    (env.createFails = true → fireAlert config agent s now env = (s, env)) ∧
    (env.updateFails = true →
      resolveAlert config s now env =
        ({ s with isFiring := false, lastRecordID := 0 }, env)) :=
  ⟨fun h => fireAlert_persistFails config agent s now env h,
   fun h => resolveAlert_persistFails config s now env h⟩

/-- Witness for the amended C2 on concrete failing environments. -/
theorem persistFailure_flag_behavior_witness :
    fireAlert cfgC1 agentA stC2 5000 envC2 = (stC2, envC2) ∧
    resolveAlert cfgC1 stFiringC2 5000 envUFC2 =
      ({ stFiringC2 with isFiring := false, lastRecordID := 0 }, envUFC2) :=
  ⟨(persistFailure_flag_behavior cfgC1 agentA stC2 5000 envC2).1 rfl,
   (persistFailure_flag_behavior cfgC1 agentA stFiringC2 5000 envUFC2).2 rfl⟩

/-! ## C10: frame of an existing state entry and threshold staleness -/

/-- `resolveAlert` never changes the number of persisted records. -/
theorem resolveAlert_records_length (config : AlertConfig) (s : AlertState) (now : Int)
    (env : AlertEnv) :
    ((resolveAlert config s now env).2).records.length = env.records.length := by
  simp only [resolveAlert]
  split
  · cases hg : getLatestAlertRecord env config.id s.alertType with
    | none => rfl
    | some ex =>
      simp only [hg, updateAlertRecord]
      split
      · rfl
      · simp
  · rfl

/-- `fireAlert` appends at most one record, and any appended record carries
the state's stored threshold. -/
theorem fireAlert_records_shape (config : AlertConfig) (agent : Agent) (s : AlertState)
    (now : Int) (env : AlertEnv) :
    (fireAlert config agent s now env).2.records = env.records ∨
    ∃ rec, (fireAlert config agent s now env).2.records = env.records ++ [rec] ∧
      rec.threshold = s.threshold := by
  cases hc : env.createFails with
  | true =>
    left
    simp [fireAlert, createAlertRecord, hc]
  | false =>
    right
    refine ⟨{ id := env.nextRecordID, agentID := agent.id, configID := config.id
              configName := config.name, alertType := s.alertType
              message := buildAlertMessage s, threshold := s.threshold
              actualValue := s.value, level := calculateLevel s.value s.threshold
              status := "firing", firedAt := now, resolvedAt := 0, createdAt := now
              updatedAt := now }, ?_, rfl⟩
    simp [fireAlert, createAlertRecord, hc]

/-- The state returned by `fireAlert` differs from its argument at most in
`isFiring` and `lastRecordID`. -/
theorem fireAlert_fst_fields (config : AlertConfig) (agent : Agent) (s : AlertState)
    (now : Int) (env : AlertEnv) :
    (fireAlert config agent s now env).1.threshold = s.threshold ∧
    (fireAlert config agent s now env).1.duration = s.duration ∧
    (fireAlert config agent s now env).1.agentID = s.agentID ∧
    (fireAlert config agent s now env).1.configID = s.configID ∧
    (fireAlert config agent s now env).1.alertType = s.alertType ∧
    (fireAlert config agent s now env).1.value = s.value ∧
    (fireAlert config agent s now env).1.lastCheckTime = s.lastCheckTime ∧
    (fireAlert config agent s now env).1.startTime = s.startTime := by
  simp only [fireAlert]
  split
  · exact ⟨rfl, rfl, rfl, rfl, rfl, rfl, rfl, rfl⟩
  · exact ⟨rfl, rfl, rfl, rfl, rfl, rfl, rfl, rfl⟩

/-- C10: an evaluation on an existing state entry updates only `value`,
`lastCheckTime`, `startTime`, `isFiring` and `lastRecordID`; the entry's
`threshold` and `duration` (and identity fields) are never refreshed from
the current configuration; the breach comparison is decided by the
threshold passed from the current configuration, while any record created
by the evaluation carries the entry's stored threshold. -/
theorem existingState_frame_and_staleThreshold (config : AlertConfig) (agent : Agent)
    (alertType : String) (v thr : ℚ) (d now : Int) (env : AlertEnv) (s : AlertState)
    (hs : getState env.states (numKey config alertType) = some s) :
    ∃ s', getState (checkAlert config agent alertType v thr d now env).states
        (numKey config alertType) = some s' ∧
      s'.threshold = s.threshold ∧ s'.duration = s.duration ∧
      s'.agentID = s.agentID ∧ s'.configID = s.configID ∧ s'.alertType = s.alertType ∧
      s'.value = v ∧ s'.lastCheckTime = now ∧
      (thr ≤ v → s'.startTime = if s.startTime = 0 then now else s.startTime) ∧
      (v < thr → s'.startTime = 0 ∧ s'.isFiring = false) ∧
      ∀ r, (checkAlert config agent alertType v thr d now env).records = env.records ++ [r] →
        r.threshold = s.threshold := by
  simp only [checkAlert, hs]
  split_ifs with hv h0 hreach hfi hfi2 hreach2 hfi3 hfi4 hfi5
  · exact ⟨_, getState_putState_self _ _ _, rfl, rfl, rfl, rfl, rfl, rfl, rfl, fun _ => rfl,
      fun hlt => absurd hv (not_le.mpr hlt), fun r hr => by
        have := congrArg List.length hr
        simp only [List.length_append, List.length_cons, List.length_nil] at this
        omega⟩
  · obtain ⟨hth, hdu, hag, hcid, hat, hval, hlc, hst⟩ :=
      fireAlert_fst_fields config agent
        { s with value := v, lastCheckTime := now, startTime := now } now env
    refine ⟨_, getState_putState_self _ _ _, hth, hdu, hag, hcid, hat, hval, hlc,
      fun _ => hst, fun hlt => absurd hv (not_le.mpr hlt), fun r hr => ?_⟩
    have hr' : (fireAlert config agent
        { s with value := v, lastCheckTime := now, startTime := now } now env).2.records
        = env.records ++ [r] := hr
    rcases fireAlert_records_shape config agent
        { s with value := v, lastCheckTime := now, startTime := now } now env with
      hsh | ⟨rec, hsh, hthr⟩
    · rw [hsh] at hr'
      have := congrArg List.length hr'
      simp only [List.length_append, List.length_cons, List.length_nil] at this
      omega
    · rw [hsh] at hr'
      have hrr : rec = r := by simpa using List.append_inj_right hr' rfl
      rw [← hrr]
      exact hthr
  · exact ⟨_, getState_putState_self _ _ _, rfl, rfl, rfl, rfl, rfl, rfl, rfl, fun _ => rfl,
      fun hlt => absurd hv (not_le.mpr hlt), fun r hr => by
        have := congrArg List.length hr
        simp only [List.length_append, List.length_cons, List.length_nil] at this
        omega⟩
  · exact ⟨_, getState_putState_self _ _ _, rfl, rfl, rfl, rfl, rfl, rfl, rfl, fun _ => rfl,
      fun hlt => absurd hv (not_le.mpr hlt), fun r hr => by
        have := congrArg List.length hr
        simp only [List.length_append, List.length_cons, List.length_nil] at this
        omega⟩
  · obtain ⟨hth, hdu, hag, hcid, hat, hval, hlc, hst⟩ :=
      fireAlert_fst_fields config agent
        { s with value := v, lastCheckTime := now } now env
    refine ⟨_, getState_putState_self _ _ _, hth, hdu, hag, hcid, hat, hval, hlc,
      fun _ => hst, fun hlt => absurd hv (not_le.mpr hlt), fun r hr => ?_⟩
    have hr' : (fireAlert config agent
        { s with value := v, lastCheckTime := now } now env).2.records
        = env.records ++ [r] := hr
    rcases fireAlert_records_shape config agent
        { s with value := v, lastCheckTime := now } now env with
      hsh | ⟨rec, hsh, hthr⟩
    · rw [hsh] at hr'
      have := congrArg List.length hr'
      simp only [List.length_append, List.length_cons, List.length_nil] at this
      omega
    · rw [hsh] at hr'
      have hrr : rec = r := by simpa using List.append_inj_right hr' rfl
      rw [← hrr]
      exact hthr
  · exact ⟨_, getState_putState_self _ _ _, rfl, rfl, rfl, rfl, rfl, rfl, rfl, fun _ => rfl,
      fun hlt => absurd hv (not_le.mpr hlt), fun r hr => by
        have := congrArg List.length hr
        simp only [List.length_append, List.length_cons, List.length_nil] at this
        omega⟩
  · refine ⟨_, getState_putState_self _ _ _, rfl, rfl, rfl, rfl, rfl, rfl, rfl,
      fun hle => absurd hle hv, fun _ => ⟨rfl, rfl⟩, fun r hr => ?_⟩
    have hr' : (resolveAlert config { s with value := v, lastCheckTime := now } now
        env).2.records = env.records ++ [r] := hr
    have hlen := congrArg List.length hr'
    rw [resolveAlert_records_length] at hlen
    simp only [List.length_append, List.length_cons, List.length_nil] at hlen
    omega
  · refine ⟨_, getState_putState_self _ _ _, rfl, rfl, rfl, rfl, rfl, rfl, rfl,
      fun hle => absurd hle hv, fun _ => ⟨rfl, rfl⟩, fun r hr => ?_⟩
    have hr' : (resolveAlert config { s with value := v, lastCheckTime := now } now
        env).2.records = env.records ++ [r] := hr
    have hlen := congrArg List.length hr'
    rw [resolveAlert_records_length] at hlen
    simp only [List.length_append, List.length_cons, List.length_nil] at hlen
    omega
  · exact ⟨_, getState_putState_self _ _ _, rfl, rfl, rfl, rfl, rfl, rfl, rfl,
      fun hle => absurd hle hv, fun _ => ⟨rfl, by simpa using hfi3⟩, fun r hr => by
        have := congrArg List.length hr
        simp only [List.length_append, List.length_cons, List.length_nil] at this
        omega⟩
  · exact ⟨_, getState_putState_self _ _ _, rfl, rfl, rfl, rfl, rfl, rfl, rfl,
      fun hle => absurd hle hv, fun _ => ⟨rfl, by simpa using hfi3⟩, fun r hr => by
        have := congrArg List.length hr
        simp only [List.length_append, List.length_cons, List.length_nil] at this
        omega⟩

/-- Existing state entry created under an older threshold 70. -/
def stC10 : AlertState :=
  { agentID := "global", configID := "c1", alertType := "cpu", value := 50, threshold := 70
    startTime := 0, duration := 60, lastCheckTime := 0, isFiring := false, lastRecordID := 0 }

/-- Environment holding the stale entry. -/
def envC10 : AlertEnv := { envEmpty with states := [(numKey cfgC1 "cpu", stC10)] }

/-- Witness for C10: after the administrator raises the rule threshold to
90, the evaluation of value 95 on the stale entry keeps the entry's stored
threshold 70 and compares against the new 90. -/
theorem existingState_frame_and_staleThreshold_witness :
    ∃ s', getState (checkAlert cfgC1 agentA "cpu" 95 90 60 5000 envC10).states
        (numKey cfgC1 "cpu") = some s' ∧
      s'.threshold = stC10.threshold ∧ s'.duration = stC10.duration ∧
      s'.agentID = stC10.agentID ∧ s'.configID = stC10.configID ∧
      s'.alertType = stC10.alertType ∧
      s'.value = 95 ∧ s'.lastCheckTime = 5000 ∧
      ((90 : ℚ) ≤ 95 → s'.startTime = if stC10.startTime = 0 then 5000 else stC10.startTime) ∧
      ((95 : ℚ) < 90 → s'.startTime = 0 ∧ s'.isFiring = false) ∧
      ∀ r, (checkAlert cfgC1 agentA "cpu" 95 90 60 5000 envC10).records
          = envC10.records ++ [r] → r.threshold = stC10.threshold :=
  existingState_frame_and_staleThreshold cfgC1 agentA "cpu" 95 90 60 5000 envC10 stC10
    (by decide)

/-! ## C4: resolution mutates the record opened for the breach episode -/

/-- Any record produced by folding `latestStep` satisfies a property that
holds for the accumulator and for every folded element. -/
theorem foldl_latestStep_some {P : AlertRecord → Prop} :
    ∀ (l : List AlertRecord) (acc : Option AlertRecord),
      (∀ x, acc = some x → P x) → (∀ x ∈ l, P x) →
      ∀ y, l.foldl latestStep acc = some y → P y := by
  intro l
  induction l with
  | nil => intro acc hacc _ y hy; exact hacc y hy
  | cons z zs ih =>
    intro acc hacc hl y hy
    simp only [List.foldl_cons] at hy
    refine ih (latestStep acc z) ?_ (fun x hx => hl x (List.mem_cons_of_mem z hx)) y hy
    intro x hx
    cases acc with
    | none =>
      simp only [latestStep] at hx
      rw [Option.some.injEq] at hx
      rw [← hx]
      exact hl z (List.mem_cons_self z zs)
    | some best =>
      simp only [latestStep] at hx
      split at hx
      · rw [Option.some.injEq] at hx
        rw [← hx]
        exact hl z (List.mem_cons_self z zs)
      · rw [Option.some.injEq] at hx
        rw [← hx]
        exact hacc best rfl

/-- Folding `latestStep` over a list ending in the strictly greatest id
returns that last record. -/
theorem foldl_latestStep_last (l : List AlertRecord) (r : AlertRecord)
    (acc : Option AlertRecord) (hacc : ∀ x, acc = some x → x.id < r.id)
    (hl : ∀ x ∈ l, x.id < r.id) :
    (l ++ [r]).foldl latestStep acc = some r := by
  rw [List.foldl_append]
  cases hacc' : l.foldl latestStep acc with
  | none => simp [latestStep]
  | some best =>
    have hb : best.id < r.id := foldl_latestStep_some l acc hacc hl best hacc'
    simp [latestStep, hb]

/-- When the record table ends in a matching record with the strictly
greatest id, `GetLatestAlertRecord` returns exactly that record. -/
theorem getLatestAlertRecord_last (env : AlertEnv) (l : List AlertRecord) (r : AlertRecord)
    (cid typ : String) (hrec : env.records = l ++ [r])
    (hcid : r.configID = cid) (htyp : r.alertType = typ)
    (hmax : ∀ rr ∈ l, rr.id < r.id) :
    getLatestAlertRecord env cid typ = some r := by
  unfold getLatestAlertRecord
  rw [hrec, List.filter_append]
  have hfr : List.filter (fun rr => rr.configID == cid && rr.alertType == typ) [r] = [r] := by
    simp [hcid, htyp]
  rw [hfr]
  exact foldl_latestStep_last _ r none (by simp)
    (fun x hx => hmax x (List.mem_of_mem_filter hx))

/-- C4: when a firing state's value drops back below the threshold, the
next evaluation resolves it by mutating the very record that was opened
for this breach episode — same row id, status set to `resolved` with a
resolution timestamp — and no new row is created. Stated over a complete
fire-then-resolve episode starting from a well-formed record table (all
existing ids below the auto-increment counter). -/
theorem resolve_mutates_openRecord (config : AlertConfig) (agent : Agent) (alertType : String)
    (v1 v2 thr : ℚ) (d t1 t2 : Int) (env : AlertEnv) (s : AlertState)
    (hs : getState env.states (numKey config alertType) = some s)
    (hf : s.isFiring = false) (h0 : s.startTime ≠ 0)
    (hv1 : thr ≤ v1) (hge : d ≤ (t1 - s.startTime).tdiv 1000)
    (hcf : env.createFails = false) (huf : env.updateFails = false)
    (hwf : ∀ rr ∈ env.records, rr.id < env.nextRecordID) (hpos : 0 < env.nextRecordID)
    (hv2 : v2 < thr) :
    ∃ r, (checkAlert config agent alertType v1 thr d t1 env).records = env.records ++ [r] ∧
      r.status = "firing" ∧ r.actualValue = v1 ∧
      (checkAlert config agent alertType v2 thr d t2
          (checkAlert config agent alertType v1 thr d t1 env)).records =
        env.records ++
          [{ r with
              status := "resolved"
              actualValue := v2
              resolvedAt := t2
              updatedAt := t2 }] ∧
      ∃ s2, getState (checkAlert config agent alertType v2 thr d t2
          (checkAlert config agent alertType v1 thr d t1 env)).states
          (numKey config alertType) = some s2 ∧
        s2.isFiring = false ∧ s2.startTime = 0 ∧ s2.lastRecordID = 0 := by
  obtain ⟨r, hfire, hrid, hragent, hrcfg, hrtype, hrstatus, hrfired, hrthr, hrval, hrlevel⟩ :=
    checkAlert_fires config agent alertType v1 thr d t1 env s hs h0 hf hv1 hge hcf
  have hrec1 : (checkAlert config agent alertType v1 thr d t1 env).records
      = env.records ++ [r] := by rw [hfire]
  have hs2 : getState (checkAlert config agent alertType v1 thr d t1 env).states
      (numKey config alertType) = some
        { s with value := v1, lastCheckTime := t1, isFiring := true,
                 lastRecordID := env.nextRecordID } := by
    rw [hfire]; exact getState_putState_self _ _ _
  have hlatest : getLatestAlertRecord (checkAlert config agent alertType v1 thr d t1 env)
      config.id s.alertType = some r := by
    refine getLatestAlertRecord_last _ env.records r _ _ hrec1 hrcfg hrtype ?_
    intro rr hrr
    rw [hrid]
    exact hwf rr hrr
  have hresolve := checkAlert_resolves config agent alertType v2 thr d t2
    (checkAlert config agent alertType v1 thr d t1 env)
    { s with value := v1, lastCheckTime := t1, isFiring := true,
             lastRecordID := env.nextRecordID }
    r hs2 rfl hv2 (by simpa using hpos) hlatest (by rw [hfire]; exact huf)
  refine ⟨r, hrec1, hrstatus, hrval, ?_, ?_⟩
  · rw [hresolve]
    show ((checkAlert config agent alertType v1 thr d t1 env).records.map fun rr =>
        if rr.id = r.id then
          { r with status := "resolved", actualValue := v2, resolvedAt := t2, updatedAt := t2 }
        else rr) = _
    rw [hrec1, List.map_append]
    have hkeep : env.records.map (fun rr =>
        if rr.id = r.id then
          { r with status := "resolved", actualValue := v2, resolvedAt := t2, updatedAt := t2 }
        else rr) = env.records := by
      rw [List.map_congr_left (g := id) ?_, List.map_id]
      intro rr hrr
      have : rr.id ≠ r.id := by
        rw [hrid]
        exact (hwf rr hrr).ne
      simp [this]
    rw [hkeep]
    simp
  · refine ⟨{ s with
                value := v2
                lastCheckTime := t2
                startTime := 0
                isFiring := false
                lastRecordID := 0 }, ?_, rfl, rfl, rfl⟩
    rw [hresolve]
    exact getState_putState_self _ _ _

/-- Environment with one mid-breach cpu state and a healthy store. -/
def envC4 : AlertEnv := { envEmpty with states := [(numKey cfgC1 "cpu", stC2)] }

/-- Witness for C4: fire at value 95 (breach since t = 1000 ms, evaluated
at 400000 ms against a 60 s gate), then resolve at value 50: the single
created row is mutated in place to `resolved`. -/
theorem resolve_mutates_openRecord_witness :
    ∃ r, (checkAlert cfgC1 agentA "cpu" 95 80 60 400000 envC4).records
        = envC4.records ++ [r] ∧
      r.status = "firing" ∧ r.actualValue = 95 ∧
      (checkAlert cfgC1 agentA "cpu" 50 80 60 500000
          (checkAlert cfgC1 agentA "cpu" 95 80 60 400000 envC4)).records =
        envC4.records ++
          [{ r with
              status := "resolved"
              actualValue := 50
              resolvedAt := 500000
              updatedAt := 500000 }] ∧
      ∃ s2, getState (checkAlert cfgC1 agentA "cpu" 50 80 60 500000
          (checkAlert cfgC1 agentA "cpu" 95 80 60 400000 envC4)).states
          (numKey cfgC1 "cpu") = some s2 ∧
        s2.isFiring = false ∧ s2.startTime = 0 ∧ s2.lastRecordID = 0 :=
  resolve_mutates_openRecord cfgC1 agentA "cpu" 95 50 80 60 400000 500000 envC4 stC2
    (by decide) rfl (by decide) (by norm_num) (by decide) rfl rfl
    (by intro rr hrr; simp [envC4, envEmpty] at hrr) (by decide) (by norm_num)

/-! ## C5: certificate alerts fire immediately and resolve on recovery -/

/-- Replacing by id in a table ending in the only row with that id. -/
theorem map_replaceById_append (l : List AlertRecord) (r upd : AlertRecord)
    (hl : ∀ rr ∈ l, rr.id ≠ r.id) :
    ((l ++ [r]).map fun rr => if rr.id = r.id then upd else rr) = l ++ [upd] := by
  rw [List.map_append]
  congr 1
  · rw [List.map_congr_left (g := id) ?_, List.map_id]
    intro rr hrr
    simp [hl rr hrr]
  · simp

/-- `checkCertificateAlerts` over a single monitored certificate reduces to
the fire or resolve path according to the threshold test. -/
theorem checkCertificateAlerts_single (config : AlertConfig) (now : Int) (env : AlertEnv)
    (m : MonitorMetric) (ag : Agent) (hm : env.monitorsHTTP = [m])
    (hexp : ¬ m.certExpiryTime = 0) (hfind : findAgentById env m.agentId = some ag) :
    checkCertificateAlerts config now env =
      if (m.certDaysLeft : ℚ) ≤ config.rules.certThreshold ∧ 0 ≤ (m.certDaysLeft : ℚ) then
        checkCertAlert config ag m (m.certDaysLeft : ℚ) now env
      else resolveCertAlert config m (m.certDaysLeft : ℚ) now env := by
  simp only [checkCertificateAlerts, hm, List.foldl_cons, List.foldl_nil, if_neg hexp, hfind]

/-- A fresh (or never-fired) certificate state fires immediately on the
check that sees the breach. -/
theorem checkCertAlert_fresh_fires (config : AlertConfig) (ag : Agent) (m : MonitorMetric)
    (days : ℚ) (now : Int) (env : AlertEnv)
    (hs : getState env.states (certKey config m.monitorId) = none)
    (hcf : env.createFails = false) :
    ∃ r, checkCertAlert config ag m days now env =
      { env with
          states := putState env.states (certKey config m.monitorId)
            { agentID := ag.id
              configID := config.id
              alertType := "cert"
              value := days
              threshold := config.rules.certThreshold
              startTime := 0
              duration := 0
              lastCheckTime := now
              isFiring := true
              lastRecordID := env.nextRecordID }
          records := env.records ++ [r]
          nextRecordID := env.nextRecordID + 1 } ∧
      r.id = env.nextRecordID ∧ r.agentID = ag.id ∧ r.configID = config.id ∧
      r.alertType = "cert" ∧ r.status = "firing" ∧ r.firedAt = now ∧
      r.threshold = config.rules.certThreshold ∧ r.actualValue = days ∧
      r.level = calculateCertLevel days := by
  refine ⟨{ id := env.nextRecordID
            agentID := ag.id
            configID := config.id
            configName := config.name
            alertType := "cert"
            message := "监控项 " ++ m.target ++ " 的HTTPS证书剩余天数" ++ toString days
              ++ "天，低于阈值" ++ toString config.rules.certThreshold ++ "天"
            threshold := config.rules.certThreshold
            actualValue := days
            level := calculateCertLevel days
            status := "firing"
            firedAt := now
            resolvedAt := 0
            createdAt := now
            updatedAt := now }, ?_, rfl, rfl, rfl, rfl, rfl, rfl, rfl, rfl, rfl⟩
  simp only [checkCertAlert, hs, Bool.false_eq_true, if_false, createAlertRecord, hcf]

/-- Resolving a firing certificate state mutates the latest `cert` record
for the configuration and clears the flags. -/
theorem resolveCertAlert_firing (config : AlertConfig) (m : MonitorMetric) (days2 : ℚ)
    (now : Int) (env : AlertEnv) (st : AlertState) (ex : AlertRecord)
    (hs : getState env.states (certKey config m.monitorId) = some st)
    (hf : st.isFiring = true) (hid : 0 < st.lastRecordID)
    (hlatest : getLatestAlertRecord env config.id "cert" = some ex)
    (huf : env.updateFails = false) :
    resolveCertAlert config m days2 now env =
      { env with
          states := putState env.states (certKey config m.monitorId)
            { st with isFiring := false, lastRecordID := 0 }
          records := env.records.map fun rr =>
            if rr.id = ex.id then
              { ex with
                  status := "resolved"
                  actualValue := days2
                  resolvedAt := now
                  updatedAt := now }
            else rr } := by
  simp only [resolveCertAlert, hs, hf, if_true, if_pos hid, hlatest, updateAlertRecord, huf,
    Bool.false_eq_true, if_false]

/-- C5: certificate alerts have no duration gate — the first check seeing
`0 ≤ daysLeft ≤ threshold` creates a firing record at that very check time,
with the level fixed by absolute days (≤ 7 critical, ≤ 30 warning, else
informational); when the days-left value later exceeds the threshold, the
next check resolves the alert by mutating the same record. -/
theorem certAlert_immediate_fire_and_resolve (config : AlertConfig) (ag : Agent)
    (m : MonitorMetric) (days2 now now2 : Int) (env : AlertEnv)
    (hm : env.monitorsHTTP = [m]) (hexp : ¬ m.certExpiryTime = 0)
    (hfind : findAgentById env m.agentId = some ag)
    (hle : (m.certDaysLeft : ℚ) ≤ config.rules.certThreshold)
    (hge0 : 0 ≤ (m.certDaysLeft : ℚ))
    (hs : getState env.states (certKey config m.monitorId) = none)
    (hcf : env.createFails = false) (huf : env.updateFails = false)
    (hwf : ∀ rr ∈ env.records, rr.id < env.nextRecordID) (hpos : 0 < env.nextRecordID)
    (hdays2 : config.rules.certThreshold < (days2 : ℚ)) :
    ∃ r, (checkCertificateAlerts config now env).records = env.records ++ [r] ∧
      r.status = "firing" ∧ r.firedAt = now ∧ r.alertType = "cert" ∧
      r.actualValue = (m.certDaysLeft : ℚ) ∧
      r.level = calculateCertLevel (m.certDaysLeft : ℚ) ∧
      ((m.certDaysLeft : ℚ) ≤ 7 → r.level = "critical") ∧
      (7 < (m.certDaysLeft : ℚ) → (m.certDaysLeft : ℚ) ≤ 30 → r.level = "warning") ∧
      (30 < (m.certDaysLeft : ℚ) → r.level = "info") ∧
      (∃ st, getState (checkCertificateAlerts config now env).states
          (certKey config m.monitorId) = some st ∧ st.isFiring = true) ∧
      (checkCertificateAlerts config now2
          { checkCertificateAlerts config now env with
              monitorsHTTP := [{ m with certDaysLeft := days2 }] }).records =
        env.records ++
          [{ r with
              status := "resolved"
              actualValue := (days2 : ℚ)
              resolvedAt := now2
              updatedAt := now2 }] ∧
      ∃ st, getState (checkCertificateAlerts config now2
          { checkCertificateAlerts config now env with
              monitorsHTTP := [{ m with certDaysLeft := days2 }] }).states
          (certKey config m.monitorId) = some st ∧ st.isFiring = false := by
  obtain ⟨r, hfire, hrid, hragent, hrcfg, hrtype, hrstatus, hrfired, hrthr, hrval, hrlevel⟩ :=
    checkCertAlert_fresh_fires config ag m (m.certDaysLeft : ℚ) now env hs hcf
  have hstep1 : checkCertificateAlerts config now env =
      checkCertAlert config ag m (m.certDaysLeft : ℚ) now env := by
    rw [checkCertificateAlerts_single config now env m ag hm hexp hfind,
      if_pos ⟨hle, hge0⟩]
  have hrec1 : (checkCertificateAlerts config now env).records = env.records ++ [r] := by
    rw [hstep1, hfire]
  have hgs1 : getState (checkCertificateAlerts config now env).states
      (certKey config m.monitorId) = some
        { agentID := ag.id
          configID := config.id
          alertType := "cert"
          value := (m.certDaysLeft : ℚ)
          threshold := config.rules.certThreshold
          startTime := 0
          duration := 0
          lastCheckTime := now
          isFiring := true
          lastRecordID := env.nextRecordID } := by
    rw [hstep1, hfire]
    exact getState_putState_self _ _ _
  have hstep2 : checkCertificateAlerts config now2
      { checkCertificateAlerts config now env with
          monitorsHTTP := [{ m with certDaysLeft := days2 }] } =
      resolveCertAlert config { m with certDaysLeft := days2 } (days2 : ℚ) now2
        { checkCertificateAlerts config now env with
            monitorsHTTP := [{ m with certDaysLeft := days2 }] } := by
    rw [checkCertificateAlerts_single config now2 _ { m with certDaysLeft := days2 } ag rfl
      (by simpa using hexp)
      (by
        show findAgentById { checkCertificateAlerts config now env with
          monitorsHTTP := [{ m with certDaysLeft := days2 }] } m.agentId = some ag
        rw [hstep1, hfire]
        exact hfind)]
    rw [if_neg (by push_neg; intro h; exact absurd (lt_of_lt_of_le hdays2 h) (lt_irrefl _))]
  have hlatest : getLatestAlertRecord
      { checkCertificateAlerts config now env with
          monitorsHTTP := [{ m with certDaysLeft := days2 }] } config.id "cert" = some r := by
    refine getLatestAlertRecord_last _ env.records r _ _ ?_ hrcfg hrtype ?_
    · show (checkCertificateAlerts config now env).records = env.records ++ [r]
      exact hrec1
    · intro rr hrr
      rw [hrid]
      exact hwf rr hrr
  have hresolve := resolveCertAlert_firing config { m with certDaysLeft := days2 }
    (days2 : ℚ) now2
    { checkCertificateAlerts config now env with
        monitorsHTTP := [{ m with certDaysLeft := days2 }] }
    { agentID := ag.id
      configID := config.id
      alertType := "cert"
      value := (m.certDaysLeft : ℚ)
      threshold := config.rules.certThreshold
      startTime := 0
      duration := 0
      lastCheckTime := now
      isFiring := true
      lastRecordID := env.nextRecordID }
    r (by show getState (checkCertificateAlerts config now env).states _ = _; exact hgs1)
    rfl (by simpa using hpos) hlatest
    (by
      show (checkCertificateAlerts config now env).updateFails = false
      rw [hstep1, hfire]
      exact huf)
  refine ⟨r, hrec1, hrstatus, hrfired, hrtype, hrval, hrlevel, ?_, ?_, ?_,
    ⟨_, hgs1, rfl⟩, ?_, ?_⟩
  · intro h7
    rw [hrlevel]
    simp [calculateCertLevel, h7]
  · intro h7 h30
    rw [hrlevel]
    simp [calculateCertLevel, not_le.mpr h7, h30]
  · intro h30
    rw [hrlevel]
    have h7 : ¬ (m.certDaysLeft : ℚ) ≤ 7 := by linarith
    simp [calculateCertLevel, h7, not_le.mpr h30]
  · rw [hstep2, hresolve]
    show ((checkCertificateAlerts config now env).records.map fun rr =>
        if rr.id = r.id then
          { r with
              status := "resolved"
              actualValue := (days2 : ℚ)
              resolvedAt := now2
              updatedAt := now2 }
        else rr) = _
    rw [hrec1]
    refine map_replaceById_append env.records r _ ?_
    intro rr hrr
    rw [hrid]
    exact (hwf rr hrr).ne
  · refine ⟨{ agentID := ag.id
              configID := config.id
              alertType := "cert"
              value := (m.certDaysLeft : ℚ)
              threshold := config.rules.certThreshold
              startTime := 0
              duration := 0
              lastCheckTime := now
              isFiring := false
              lastRecordID := 0 }, ?_, rfl⟩
    rw [hstep2, hresolve]
    exact getState_putState_self _ _ _

/-- Global configuration with the certificate rule enabled at 30 days. -/
def cfgCert : AlertConfig :=
  { id := "c5", agentID := "global", name := "certs", enabled := true
    createdAt := 0, updatedAt := 0
    rules := { rulesOff with certEnabled := true, certThreshold := 30 } }

/-- An HTTPS monitor whose certificate has 5 days left. -/
def monC5 : MonitorMetric :=
  { monitorId := "m1", agentId := "a1", target := "https://example", status := "up"
    timestamp := 0, certExpiryTime := 1, certDaysLeft := 5 }

/-- Environment observing that monitor. -/
def envC5 : AlertEnv := { envEmpty with monitorsHTTP := [monC5], agents := [agentA] }

/-- Witness for C5: `daysLeft = 5`, `threshold = 30` fires immediately at
level critical; when `daysLeft` becomes 40 the alert resolves on the next
check. -/
theorem certAlert_immediate_fire_and_resolve_witness :
    ∃ r, (checkCertificateAlerts cfgCert 1000 envC5).records = envC5.records ++ [r] ∧
      r.status = "firing" ∧ r.firedAt = 1000 ∧ r.alertType = "cert" ∧
      r.actualValue = (monC5.certDaysLeft : ℚ) ∧
      r.level = calculateCertLevel (monC5.certDaysLeft : ℚ) ∧
      ((monC5.certDaysLeft : ℚ) ≤ 7 → r.level = "critical") ∧
      (7 < (monC5.certDaysLeft : ℚ) → (monC5.certDaysLeft : ℚ) ≤ 30 → r.level = "warning") ∧
      (30 < (monC5.certDaysLeft : ℚ) → r.level = "info") ∧
      (∃ st, getState (checkCertificateAlerts cfgCert 1000 envC5).states
          (certKey cfgCert monC5.monitorId) = some st ∧ st.isFiring = true) ∧
      (checkCertificateAlerts cfgCert 2000
          { checkCertificateAlerts cfgCert 1000 envC5 with
              monitorsHTTP := [{ monC5 with certDaysLeft := 40 }] }).records =
        envC5.records ++
          [{ r with
              status := "resolved"
              actualValue := ((40 : Int) : ℚ)
              resolvedAt := 2000
              updatedAt := 2000 }] ∧
      ∃ st, getState (checkCertificateAlerts cfgCert 2000
          { checkCertificateAlerts cfgCert 1000 envC5 with
              monitorsHTTP := [{ monC5 with certDaysLeft := 40 }] }).states
          (certKey cfgCert monC5.monitorId) = some st ∧ st.isFiring = false :=
  certAlert_immediate_fire_and_resolve cfgCert agentA monC5 40 1000 2000 envC5
    rfl (by decide) (by decide) (by decide) (by decide) rfl rfl rfl
    (by intro rr hrr; simp [envC5, envEmpty] at hrr) (by decide) (by decide)

/-! ## C6: agent-offline duration is measured from `lastSeenAt` -/

/-- A sequence of agent-offline evaluation passes at the given times. -/
def runOfflineChecks (config : AlertConfig) (times : List Int) (env : AlertEnv) : AlertEnv :=
  times.foldl (fun e t => checkAgentOfflineAlerts config t e) env

/-- One offline check below the duration threshold on a single-agent fleet
neither fires nor writes a record. -/
theorem checkAgentOffline_single_noFire (config : AlertConfig) (ag : Agent) (t : Int)
    (env : AlertEnv) (hag : env.agents = [ag])
    (hst : getState env.states (offlineKey config ag.id) = none ∨
      ∃ st, getState env.states (offlineKey config ag.id) = some st ∧ st.isFiring = false)
    (hlt : (t - ag.lastSeenAt).tdiv 1000 < config.rules.agentOfflineDuration) :
    ∃ st', checkAgentOfflineAlerts config t env =
      { env with states := putState env.states (offlineKey config ag.id) st' } ∧
      st'.isFiring = false := by
  rcases hst with hnone | ⟨st, hsome, hf⟩
  · refine ⟨{ agentID := ag.id
              configID := config.id
              alertType := "agent_offline"
              value := 0
              threshold := 0
              startTime := 0
              duration := config.rules.agentOfflineDuration
              lastCheckTime := t
              isFiring := false
              lastRecordID := 0 }, ?_, rfl⟩
    simp only [checkAgentOfflineAlerts, hag, List.foldl_cons, List.foldl_nil, hnone]
    rw [if_neg (not_le.mpr hlt)]
    simp
  · refine ⟨{ st with lastCheckTime := t }, ?_, by simpa using hf⟩
    simp only [checkAgentOfflineAlerts, hag, List.foldl_cons, List.foldl_nil, hsome]
    rw [if_neg (not_le.mpr hlt)]
    simp [hf]

/-- One offline check at or past the duration threshold on a non-firing
single-agent fleet fires a record carrying the measured offline seconds. -/
theorem checkAgentOffline_single_fires (config : AlertConfig) (ag : Agent) (t : Int)
    (env : AlertEnv) (hag : env.agents = [ag])
    (hst : getState env.states (offlineKey config ag.id) = none ∨
      ∃ st, getState env.states (offlineKey config ag.id) = some st ∧ st.isFiring = false)
    (hge : config.rules.agentOfflineDuration ≤ (t - ag.lastSeenAt).tdiv 1000)
    (hcf : env.createFails = false) :
    ∃ st' r, checkAgentOfflineAlerts config t env =
      { env with
          states := putState env.states (offlineKey config ag.id) st'
          records := env.records ++ [r]
          nextRecordID := env.nextRecordID + 1 } ∧
      st'.isFiring = true ∧ r.status = "firing" ∧ r.alertType = "agent_offline" ∧
      r.actualValue = (((t - ag.lastSeenAt).tdiv 1000 : Int) : ℚ) ∧ r.firedAt = t := by
  rcases hst with hnone | ⟨st, hsome, hf⟩
  · refine ⟨{ agentID := ag.id
              configID := config.id
              alertType := "agent_offline"
              value := 0
              threshold := 0
              startTime := 0
              duration := config.rules.agentOfflineDuration
              lastCheckTime := t
              isFiring := true
              lastRecordID := env.nextRecordID },
      { id := env.nextRecordID
        agentID := ag.id
        configID := config.id
        configName := config.name
        alertType := "agent_offline"
        message := "探针 " ++ ag.name ++ " 已离线" ++ toString ((t - ag.lastSeenAt).tdiv 1000)
          ++ "秒，超过阈值" ++ toString config.rules.agentOfflineDuration ++ "秒"
        threshold := ((config.rules.agentOfflineDuration : Int) : ℚ)
        actualValue := (((t - ag.lastSeenAt).tdiv 1000 : Int) : ℚ)
        level := "critical"
        status := "firing"
        firedAt := t
        resolvedAt := 0
        createdAt := t
        updatedAt := t }, ?_, rfl, rfl, rfl, rfl, rfl⟩
    simp only [checkAgentOfflineAlerts, hag, List.foldl_cons, List.foldl_nil, hnone]
    rw [if_pos hge]
    simp only [Bool.false_eq_true, if_false, fireAgentOfflineAlert, createAlertRecord, hcf]
    rw [hag]
  · refine ⟨{ st with lastCheckTime := t, isFiring := true, lastRecordID := env.nextRecordID },
      { id := env.nextRecordID
        agentID := ag.id
        configID := config.id
        configName := config.name
        alertType := "agent_offline"
        message := "探针 " ++ ag.name ++ " 已离线" ++ toString ((t - ag.lastSeenAt).tdiv 1000)
          ++ "秒，超过阈值" ++ toString st.duration ++ "秒"
        threshold := ((st.duration : Int) : ℚ)
        actualValue := (((t - ag.lastSeenAt).tdiv 1000 : Int) : ℚ)
        level := "critical"
        status := "firing"
        firedAt := t
        resolvedAt := 0
        createdAt := t
        updatedAt := t }, ?_, rfl, rfl, rfl, rfl, rfl⟩
    simp only [checkAgentOfflineAlerts, hag, List.foldl_cons, List.foldl_nil, hsome]
    rw [if_pos hge]
    simp only [hf, Bool.false_eq_true, if_false, fireAgentOfflineAlert, createAlertRecord, hcf]
    rw [hag]

/-- Offline checks strictly before `lastSeenAt + duration` never fire and
never write, whatever their number. -/
theorem runOffline_noFire (config : AlertConfig) (ag : Agent) (times : List Int) :
    ∀ env : AlertEnv, env.agents = [ag] →
      (getState env.states (offlineKey config ag.id) = none ∨
        ∃ st, getState env.states (offlineKey config ag.id) = some st ∧ st.isFiring = false) →
      (∀ t ∈ times, ag.lastSeenAt ≤ t ∧
        t < ag.lastSeenAt + 1000 * config.rules.agentOfflineDuration) →
      ∃ sts', runOfflineChecks config times env = { env with states := sts' } ∧
        (getState sts' (offlineKey config ag.id) = none ∨
          ∃ st, getState sts' (offlineKey config ag.id) = some st ∧ st.isFiring = false) := by
  induction times with
  | nil => intro env hag hst _; exact ⟨env.states, rfl, hst⟩
  | cons t ts ih =>
    intro env hag hst hts
    obtain ⟨hle, hlt⟩ := hts t (List.mem_cons_self t ts)
    obtain ⟨st', hstep, hf'⟩ := checkAgentOffline_single_noFire config ag t env hag hst
      (by
        rw [← not_le]
        intro hcon
        exact absurd ((duration_reached_iff _ hle).mp hcon) (by omega))
    obtain ⟨sts', hrun, hinv⟩ := ih
      { env with states := putState env.states (offlineKey config ag.id) st' }
      hag (Or.inr ⟨st', getState_putState_self _ _ _, hf'⟩)
      (fun q hq => hts q (List.mem_cons_of_mem t hq))
    refine ⟨sts', ?_, hinv⟩
    simp only [runOfflineChecks, List.foldl_cons] at hrun ⊢
    rw [hstep]
    exact hrun

/-- C6: agent-offline alerts measure the offline duration from the agent's
`lastSeenAt` timestamp, not from when the loop first noticed: any number of
evaluations strictly before `lastSeenAt + duration` write nothing, and the
first evaluation at or past it fires a record whose actual value is the
offline seconds measured from `lastSeenAt`. -/
theorem agentOffline_measured_from_lastSeen (config : AlertConfig) (ag : Agent)
    (pres : List Int) (tf : Int) (env : AlertEnv)
    (hag : env.agents = [ag]) (hcf : env.createFails = false)
    (hst0 : getState env.states (offlineKey config ag.id) = none)
    (hpres : ∀ t ∈ pres, ag.lastSeenAt ≤ t ∧
      t < ag.lastSeenAt + 1000 * config.rules.agentOfflineDuration)
    (htf0 : ag.lastSeenAt ≤ tf)
    (htf : ag.lastSeenAt + 1000 * config.rules.agentOfflineDuration ≤ tf) :
    (runOfflineChecks config pres env).records = env.records ∧
    ∃ r, (runOfflineChecks config (pres ++ [tf]) env).records = env.records ++ [r] ∧
      r.status = "firing" ∧ r.alertType = "agent_offline" ∧
      r.actualValue = (((tf - ag.lastSeenAt).tdiv 1000 : Int) : ℚ) ∧ r.firedAt = tf := by
  obtain ⟨sts', hrun, hinv⟩ := runOffline_noFire config ag pres env hag (Or.inl hst0) hpres
  have hrec1 : (runOfflineChecks config pres env).records = env.records := by rw [hrun]
  obtain ⟨st', r, hstep, hfi', hrstatus, hrtype, hrval, hrfired⟩ :=
    checkAgentOffline_single_fires config ag tf (runOfflineChecks config pres env)
      (by rw [hrun]; exact hag)
      (by rw [hrun]; exact hinv)
      ((duration_reached_iff _ htf0).mpr htf)
      (by rw [hrun]; exact hcf)
  refine ⟨hrec1, r, ?_, hrstatus, hrtype, hrval, hrfired⟩
  have hsplit : runOfflineChecks config (pres ++ [tf]) env =
      checkAgentOfflineAlerts config tf (runOfflineChecks config pres env) := by
    simp only [runOfflineChecks, List.foldl_append, List.foldl_cons, List.foldl_nil]
  rw [hsplit, hstep]
  show (runOfflineChecks config pres env).records ++ [r] = env.records ++ [r]
  rw [hrec1]

/-- Global configuration with a 300 s agent-offline rule. -/
def cfgOffline : AlertConfig :=
  { id := "c6", agentID := "global", name := "offline", enabled := true
    createdAt := 0, updatedAt := 0
    rules := { rulesOff with agentOfflineEnabled := true, agentOfflineDuration := 300 } }

/-- A one-agent fleet whose agent was last seen at T = 0. -/
def envC6 : AlertEnv := { envEmpty with agents := [agentA] }

/-- Witness for C6: with `lastSeenAt = 0` and a 300 s rule, the evaluation
at 299 s writes nothing and the evaluation at 301 s fires with actual value
301 offline seconds. -/
theorem agentOffline_measured_from_lastSeen_witness :
    ((runOfflineChecks cfgOffline [299000] envC6).records = envC6.records ∧
    ∃ r, (runOfflineChecks cfgOffline ([299000] ++ [301000]) envC6).records
        = envC6.records ++ [r] ∧
      r.status = "firing" ∧ r.alertType = "agent_offline" ∧
      r.actualValue = (((301000 - agentA.lastSeenAt).tdiv 1000 : Int) : ℚ) ∧
      r.firedAt = 301000) ∧
    (((301000 - agentA.lastSeenAt).tdiv 1000 : Int) : ℚ) = 301 :=
  ⟨agentOffline_measured_from_lastSeen cfgOffline agentA [299000] 301000 envC6
      rfl rfl rfl (by decide) (by decide) (by decide),
   by decide⟩

/-! ## Record-provenance invariants (used for C3 and C8) -/

/-- A record returned by `GetLatestAlertRecord` matches the queried
config id. -/
theorem getLatestAlertRecord_configID (env : AlertEnv) (cid typ : String) (r : AlertRecord)
    (h : getLatestAlertRecord env cid typ = some r) : r.configID = cid := by
  unfold getLatestAlertRecord at h
  refine foldl_latestStep_some (P := fun x => x.configID = cid) _ none (by simp) ?_ r h
  intro x hx
  rw [List.mem_filter] at hx
  have hx' := hx.2
  simp only [Bool.and_eq_true, beq_iff_eq] at hx'
  exact hx'.1

/-- `UpdateAlertRecord` with a row of an untouched config id preserves the
absence of records for a given config id. -/
theorem updateAlertRecord_inv (Q : AlertRecord → Prop) (env : AlertEnv) (rec : AlertRecord)
    (hrec : ∀ r ∈ env.records, Q r) (hrc : Q rec) :
    ∀ r ∈ (updateAlertRecord env rec).records, Q r := by
  intro r hr
  unfold updateAlertRecord at hr
  split at hr
  · exact hrec r hr
  · simp only [List.mem_map] at hr
    obtain ⟨x, hx, hfx⟩ := hr
    by_cases hxid : x.id = rec.id
    · rw [← hfx]
      simp only [hxid, if_true]
      exact hrc
    · rw [← hfx]
      simp only [hxid, if_false]
      exact hrec x hx

/-- `fireAlert` only creates records for its own config. -/
theorem fireAlert_inv (Q : AlertRecord → Prop) (config : AlertConfig) (agent : Agent) (s : AlertState)
    (now : Int) (env : AlertEnv) (hQ : ∀ rr : AlertRecord, rr.configID = config.id → Q rr)
    (hrec : ∀ r ∈ env.records, Q r) :
    ∀ r ∈ (fireAlert config agent s now env).2.records, Q r := by
  intro r hr
  cases hc : env.createFails with
  | true =>
    simp only [fireAlert, createAlertRecord, hc, if_true] at hr
    exact hrec r hr
  | false =>
    simp only [fireAlert, createAlertRecord, hc, Bool.false_eq_true, if_false,
      List.mem_append, List.mem_singleton] at hr
    rcases hr with hr | hr
    · exact hrec r hr
    · rw [hr]
      exact hQ _ rfl

/-- `resolveAlert` only mutates records of its own config. -/
theorem resolveAlert_inv (Q : AlertRecord → Prop) (config : AlertConfig) (s : AlertState)
    (now : Int) (env : AlertEnv) (hQ : ∀ rr : AlertRecord, rr.configID = config.id → Q rr)
    (hrec : ∀ r ∈ env.records, Q r) :
    ∀ r ∈ (resolveAlert config s now env).2.records, Q r := by
  intro r hr
  by_cases hid : 0 < s.lastRecordID
  · cases hg : getLatestAlertRecord env config.id s.alertType with
    | none =>
      simp only [resolveAlert, if_pos hid, hg] at hr
      exact hrec r hr
    | some ex =>
      have hcid := getLatestAlertRecord_configID env config.id s.alertType ex hg
      simp only [resolveAlert, if_pos hid, hg] at hr
      have hq2 : Q { ex with status := "resolved", actualValue := s.value, resolvedAt := now, updatedAt := now } := hQ _ hcid
      exact updateAlertRecord_inv Q env _ hrec hq2 r hr
  · simp only [resolveAlert, if_neg hid] at hr
    exact hrec r hr

/-- `checkAlert` only creates or mutates records of its own config. -/
theorem checkAlert_inv (Q : AlertRecord → Prop) (config : AlertConfig) (agent : Agent)
    (alertType : String) (v thr : ℚ) (d now : Int) (env : AlertEnv) (hQ : ∀ rr : AlertRecord, rr.configID = config.id → Q rr)
    (hrec : ∀ r ∈ env.records, Q r) :
    ∀ r ∈ (checkAlert config agent alertType v thr d now env).records, Q r := by
  intro r hr
  cases hg : getState env.states (numKey config alertType) with
  | none =>
    simp only [checkAlert, hg] at hr
    split_ifs at hr
    · exact hrec r hr
    · exact fireAlert_inv Q config agent _ now env hQ hrec r hr
    · exact hrec r hr
    · exact resolveAlert_inv Q config _ now env hQ hrec r hr
    · exact hrec r hr
  | some st =>
    simp only [checkAlert, hg] at hr
    split_ifs at hr
    · exact hrec r hr
    · exact fireAlert_inv Q config agent _ now env hQ hrec r hr
    · exact hrec r hr
    · exact hrec r hr
    · exact fireAlert_inv Q config agent _ now env hQ hrec r hr
    · exact hrec r hr
    · exact resolveAlert_inv Q config _ now env hQ hrec r hr
    · exact hrec r hr

/-- The part of the environment the alert engine never writes: failure
flags, configuration table, agents, monitor metrics. -/
def storeView (env : AlertEnv) :
    Bool × Bool × List AlertConfig × Bool × List Agent × List MonitorMetric ×
      List MonitorMetric :=
  (env.createFails, env.updateFails, env.configs, env.configsLoadFails, env.agents,
    env.monitorsHTTP, env.monitorsAll)

theorem storeView_fireAlert (config : AlertConfig) (agent : Agent) (s : AlertState)
    (now : Int) (env : AlertEnv) :
    storeView (fireAlert config agent s now env).2 = storeView env := by
  cases hc : env.createFails <;> simp [fireAlert, createAlertRecord, hc, storeView]

theorem storeView_resolveAlert (config : AlertConfig) (s : AlertState) (now : Int)
    (env : AlertEnv) :
    storeView (resolveAlert config s now env).2 = storeView env := by
  simp only [resolveAlert]
  split
  · cases hg : getLatestAlertRecord env config.id s.alertType with
    | none => simp [hg]
    | some ex =>
      simp only [hg, updateAlertRecord]
      split
      · rfl
      · rfl
  · rfl

theorem storeView_checkAlert (config : AlertConfig) (agent : Agent) (alertType : String)
    (v thr : ℚ) (d now : Int) (env : AlertEnv) :
    storeView (checkAlert config agent alertType v thr d now env) = storeView env := by
  cases hg : getState env.states (numKey config alertType) with
  | none =>
    simp only [checkAlert, hg]
    split_ifs
    · rfl
    · exact storeView_fireAlert config agent _ now env
    · rfl
    · exact storeView_resolveAlert config _ now env
    · rfl
  | some st =>
    simp only [checkAlert, hg]
    split_ifs
    · rfl
    · exact storeView_fireAlert config agent _ now env
    · rfl
    · rfl
    · exact storeView_fireAlert config agent _ now env
    · rfl
    · exact storeView_resolveAlert config _ now env
    · rfl

theorem storeView_checkCertAlert (config : AlertConfig) (agent : Agent) (m : MonitorMetric)
    (days : ℚ) (now : Int) (env : AlertEnv) :
    storeView (checkCertAlert config agent m days now env) = storeView env := by
  cases hg : getState env.states (certKey config m.monitorId) with
  | none =>
    simp only [checkCertAlert, hg, Bool.false_eq_true, if_false]
    cases hc : env.createFails <;> simp [createAlertRecord, hc, storeView]
  | some st =>
    simp only [checkCertAlert, hg]
    split_ifs
    · rfl
    · cases hc : env.createFails <;> simp [createAlertRecord, hc, storeView]

theorem checkCertAlert_inv (Q : AlertRecord → Prop) (config : AlertConfig) (agent : Agent)
    (m : MonitorMetric) (days : ℚ) (now : Int) (env : AlertEnv) (hQ : ∀ rr : AlertRecord, rr.configID = config.id → Q rr)
    (hrec : ∀ r ∈ env.records, Q r) :
    ∀ r ∈ (checkCertAlert config agent m days now env).records, Q r := by
  intro r hr
  cases hg : getState env.states (certKey config m.monitorId) with
  | none =>
    simp only [checkCertAlert, hg, Bool.false_eq_true, if_false] at hr
    cases hc : env.createFails with
    | true =>
      simp only [createAlertRecord, hc, if_true] at hr
      exact hrec r hr
    | false =>
      simp only [createAlertRecord, hc, Bool.false_eq_true, if_false, List.mem_append,
        List.mem_singleton] at hr
      rcases hr with hr | hr
      · exact hrec r hr
      · rw [hr]; exact hQ _ rfl
  | some st =>
    simp only [checkCertAlert, hg] at hr
    split_ifs at hr
    · exact hrec r hr
    · cases hc : env.createFails with
      | true =>
        simp only [createAlertRecord, hc, if_true] at hr
        exact hrec r hr
      | false =>
        simp only [createAlertRecord, hc, Bool.false_eq_true, if_false, List.mem_append,
          List.mem_singleton] at hr
        rcases hr with hr | hr
        · exact hrec r hr
        · rw [hr]; exact hQ _ rfl

theorem storeView_resolveCertAlert (config : AlertConfig) (m : MonitorMetric) (days : ℚ)
    (now : Int) (env : AlertEnv) :
    storeView (resolveCertAlert config m days now env) = storeView env := by
  cases hg : getState env.states (certKey config m.monitorId) with
  | none => simp [resolveCertAlert, hg]
  | some st =>
    simp only [resolveCertAlert, hg]
    split_ifs with hf hid
    · cases hgl : getLatestAlertRecord env config.id "cert" with
      | none => simp [hgl, storeView]
      | some ex =>
        simp only [hgl, updateAlertRecord]
        split
        · rfl
        · rfl
    · rfl
    · rfl

theorem resolveCertAlert_inv (Q : AlertRecord → Prop) (config : AlertConfig) (m : MonitorMetric)
    (days : ℚ) (now : Int) (env : AlertEnv) (hQ : ∀ rr : AlertRecord, rr.configID = config.id → Q rr)
    (hrec : ∀ r ∈ env.records, Q r) :
    ∀ r ∈ (resolveCertAlert config m days now env).records, Q r := by
  intro r hr
  cases hg : getState env.states (certKey config m.monitorId) with
  | none =>
    simp only [resolveCertAlert, hg] at hr
    exact hrec r hr
  | some st =>
    simp only [resolveCertAlert, hg] at hr
    split_ifs at hr with hf hid
    · cases hgl : getLatestAlertRecord env config.id "cert" with
      | none =>
        simp only [hgl] at hr
        exact hrec r hr
      | some ex =>
        have hcid := getLatestAlertRecord_configID env config.id "cert" ex hgl
        simp only [hgl] at hr
        have hq2 : Q { ex with status := "resolved", actualValue := days, resolvedAt := now, updatedAt := now } := hQ _ hcid
        exact updateAlertRecord_inv Q env _ hrec hq2 r hr
    · exact hrec r hr
    · exact hrec r hr

theorem storeView_fireServiceDownAlert (config : AlertConfig) (agent : Agent)
    (m : MonitorMetric) (s : AlertState) (now : Int) (env : AlertEnv) :
    storeView (fireServiceDownAlert config agent m s now env).2 = storeView env := by
  cases hc : env.createFails <;> simp [fireServiceDownAlert, createAlertRecord, hc, storeView]

theorem fireServiceDownAlert_inv (Q : AlertRecord → Prop) (config : AlertConfig) (agent : Agent)
    (m : MonitorMetric) (s : AlertState) (now : Int) (env : AlertEnv) (hQ : ∀ rr : AlertRecord, rr.configID = config.id → Q rr)
    (hrec : ∀ r ∈ env.records, Q r) :
    ∀ r ∈ (fireServiceDownAlert config agent m s now env).2.records, Q r := by
  intro r hr
  cases hc : env.createFails with
  | true =>
    simp only [fireServiceDownAlert, createAlertRecord, hc, if_true] at hr
    exact hrec r hr
  | false =>
    simp only [fireServiceDownAlert, createAlertRecord, hc, Bool.false_eq_true, if_false,
      List.mem_append, List.mem_singleton] at hr
    rcases hr with hr | hr
    · exact hrec r hr
    · rw [hr]; exact hQ _ rfl

theorem storeView_resolveServiceDownAlert (config : AlertConfig) (s : AlertState) (now : Int)
    (env : AlertEnv) :
    storeView (resolveServiceDownAlert config s now env).2 = storeView env := by
  simp only [resolveServiceDownAlert]
  split
  · cases hg : getLatestAlertRecord env config.id "service" with
    | none => simp [hg]
    | some ex =>
      simp only [hg, updateAlertRecord]
      split
      · rfl
      · rfl
  · rfl

theorem resolveServiceDownAlert_inv (Q : AlertRecord → Prop) (config : AlertConfig) (s : AlertState)
    (now : Int) (env : AlertEnv) (hQ : ∀ rr : AlertRecord, rr.configID = config.id → Q rr)
    (hrec : ∀ r ∈ env.records, Q r) :
    ∀ r ∈ (resolveServiceDownAlert config s now env).2.records, Q r := by
  intro r hr
  by_cases hid : 0 < s.lastRecordID
  · cases hg : getLatestAlertRecord env config.id "service" with
    | none =>
      simp only [resolveServiceDownAlert, if_pos hid, hg] at hr
      exact hrec r hr
    | some ex =>
      have hcid := getLatestAlertRecord_configID env config.id "service" ex hg
      simp only [resolveServiceDownAlert, if_pos hid, hg] at hr
      have hq2 : Q { ex with status := "resolved", resolvedAt := now, updatedAt := now } := hQ _ hcid
      exact updateAlertRecord_inv Q env _ hrec hq2 r hr
  · simp only [resolveServiceDownAlert, if_neg hid] at hr
    exact hrec r hr

theorem storeView_fireAgentOfflineAlert (config : AlertConfig) (agent : Agent)
    (s : AlertState) (off now : Int) (env : AlertEnv) :
    storeView (fireAgentOfflineAlert config agent s off now env).2 = storeView env := by
  cases hc : env.createFails <;> simp [fireAgentOfflineAlert, createAlertRecord, hc, storeView]

theorem fireAgentOfflineAlert_inv (Q : AlertRecord → Prop) (config : AlertConfig) (agent : Agent)
    (s : AlertState) (off now : Int) (env : AlertEnv) (hQ : ∀ rr : AlertRecord, rr.configID = config.id → Q rr)
    (hrec : ∀ r ∈ env.records, Q r) :
    ∀ r ∈ (fireAgentOfflineAlert config agent s off now env).2.records, Q r := by
  intro r hr
  cases hc : env.createFails with
  | true =>
    simp only [fireAgentOfflineAlert, createAlertRecord, hc, if_true] at hr
    exact hrec r hr
  | false =>
    simp only [fireAgentOfflineAlert, createAlertRecord, hc, Bool.false_eq_true, if_false,
      List.mem_append, List.mem_singleton] at hr
    rcases hr with hr | hr
    · exact hrec r hr
    · rw [hr]; exact hQ _ rfl

theorem storeView_resolveAgentOfflineAlert (config : AlertConfig) (s : AlertState) (now : Int)
    (env : AlertEnv) :
    storeView (resolveAgentOfflineAlert config s now env).2 = storeView env := by
  simp only [resolveAgentOfflineAlert]
  split
  · cases hg : getLatestAlertRecord env config.id "agent_offline" with
    | none => simp [hg]
    | some ex =>
      simp only [hg, updateAlertRecord]
      split
      · rfl
      · rfl
  · rfl

theorem resolveAgentOfflineAlert_inv (Q : AlertRecord → Prop) (config : AlertConfig) (s : AlertState)
    (now : Int) (env : AlertEnv) (hQ : ∀ rr : AlertRecord, rr.configID = config.id → Q rr)
    (hrec : ∀ r ∈ env.records, Q r) :
    ∀ r ∈ (resolveAgentOfflineAlert config s now env).2.records, Q r := by
  intro r hr
  by_cases hid : 0 < s.lastRecordID
  · cases hg : getLatestAlertRecord env config.id "agent_offline" with
    | none =>
      simp only [resolveAgentOfflineAlert, if_pos hid, hg] at hr
      exact hrec r hr
    | some ex =>
      have hcid := getLatestAlertRecord_configID env config.id "agent_offline" ex hg
      simp only [resolveAgentOfflineAlert, if_pos hid, hg] at hr
      have hq2 : Q { ex with status := "resolved", resolvedAt := now, updatedAt := now } := hQ _ hcid
      exact updateAlertRecord_inv Q env _ hrec hq2 r hr
  · simp only [resolveAgentOfflineAlert, if_neg hid] at hr
    exact hrec r hr

theorem checkCertificateAlerts_inv (Q : AlertRecord → Prop) (config : AlertConfig) (now : Int)
    (env : AlertEnv) (hQ : ∀ rr : AlertRecord, rr.configID = config.id → Q rr)
    (hrec : ∀ r ∈ env.records, Q r) :
    storeView (checkCertificateAlerts config now env) = storeView env ∧
    ∀ r ∈ (checkCertificateAlerts config now env).records, Q r := by
  unfold checkCertificateAlerts
  refine foldl_preserve
    (fun e => storeView e = storeView env ∧ ∀ r ∈ e.records, Q r)
    _ env.monitorsHTTP ?_ env ⟨rfl, hrec⟩
  intro m _ e he
  obtain ⟨hsv, hrece⟩ := he
  by_cases hexp : m.certExpiryTime = 0
  · rw [if_pos hexp]
    exact ⟨hsv, hrece⟩
  · rw [if_neg hexp]
    cases hfind : findAgentById e m.agentId with
    | none =>
      simp only [hfind]
      exact ⟨hsv, hrece⟩
    | some ag =>
      simp only [hfind]
      split_ifs with hcond
      · exact ⟨(storeView_checkCertAlert config ag m _ now e).trans hsv,
          checkCertAlert_inv Q config ag m _ now e hQ hrece⟩
      · exact ⟨(storeView_resolveCertAlert config m _ now e).trans hsv,
          resolveCertAlert_inv Q config m _ now e hQ hrece⟩

theorem checkServiceDownAlerts_inv (Q : AlertRecord → Prop) (config : AlertConfig) (now : Int)
    (env : AlertEnv) (hQ : ∀ rr : AlertRecord, rr.configID = config.id → Q rr)
    (hrec : ∀ r ∈ env.records, Q r) :
    storeView (checkServiceDownAlerts config now env) = storeView env ∧
    ∀ r ∈ (checkServiceDownAlerts config now env).records, Q r := by
  unfold checkServiceDownAlerts
  refine foldl_preserve
    (fun e => storeView e = storeView env ∧ ∀ r ∈ e.records, Q r)
    _ env.monitorsAll ?_ env ⟨rfl, hrec⟩
  intro m _ e he
  obtain ⟨hsv, hrece⟩ := he
  cases hfind : findAgentById e m.agentId with
  | none =>
    simp only [hfind]
    exact ⟨hsv, hrece⟩
  | some ag =>
    simp only [hfind]
    cases hg : getState e.states (serviceKey config m.monitorId) with
    | none =>
      split_ifs <;>
        first
          | exact ⟨hsv, hrece⟩
          | exact ⟨(storeView_fireServiceDownAlert config ag m _ now e).trans hsv,
              fireServiceDownAlert_inv Q config ag m _ now e hQ hrece⟩
    | some st =>
      split_ifs <;>
        first
          | exact ⟨hsv, hrece⟩
          | exact ⟨(storeView_fireServiceDownAlert config ag m _ now e).trans hsv,
              fireServiceDownAlert_inv Q config ag m _ now e hQ hrece⟩
          | exact ⟨(storeView_resolveServiceDownAlert config _ now e).trans hsv,
              resolveServiceDownAlert_inv Q config _ now e hQ hrece⟩

theorem checkAgentOfflineAlerts_inv (Q : AlertRecord → Prop) (config : AlertConfig) (now : Int)
    (env : AlertEnv) (hQ : ∀ rr : AlertRecord, rr.configID = config.id → Q rr)
    (hrec : ∀ r ∈ env.records, Q r) :
    storeView (checkAgentOfflineAlerts config now env) = storeView env ∧
    ∀ r ∈ (checkAgentOfflineAlerts config now env).records, Q r := by
  unfold checkAgentOfflineAlerts
  refine foldl_preserve
    (fun e => storeView e = storeView env ∧ ∀ r ∈ e.records, Q r)
    _ env.agents ?_ env ⟨rfl, hrec⟩
  intro ag _ e he
  obtain ⟨hsv, hrece⟩ := he
  cases hg : getState e.states (offlineKey config ag.id) with
  | none =>
    simp only [hg]
    split_ifs <;>
      first
        | exact ⟨hsv, hrece⟩
        | exact ⟨(storeView_fireAgentOfflineAlert config ag _ _ now e).trans hsv,
            fireAgentOfflineAlert_inv Q config ag _ _ now e hQ hrece⟩
  | some st =>
    simp only [hg]
    split_ifs <;>
      first
        | exact ⟨hsv, hrece⟩
        | exact ⟨(storeView_fireAgentOfflineAlert config ag _ _ now e).trans hsv,
            fireAgentOfflineAlert_inv Q config ag _ _ now e hQ hrece⟩
        | exact ⟨(storeView_resolveAgentOfflineAlert config _ now e).trans hsv,
            resolveAgentOfflineAlert_inv Q config _ now e hQ hrece⟩

theorem CheckMetrics_inv (Q : AlertRecord → Prop) (aid : String) (cpu mem dsk : ℚ)
    (now : Int) (env env' : AlertEnv)
    (hQ : ∀ c ∈ findEnabledByAgentID env "global", ∀ rr : AlertRecord,
      rr.configID = c.id → Q rr)
    (hrec : ∀ r ∈ env.records, Q r)
    (h : CheckMetrics aid cpu mem dsk now env = .ok env') :
    storeView env' = storeView env ∧ ∀ r ∈ env'.records, Q r := by
  unfold CheckMetrics at h
  split at h
  · cases h
  · cases hfind : findAgentById env aid with
    | none =>
      rw [hfind] at h
      cases h
    | some ag =>
      rw [hfind] at h
      injection h with h2
      subst h2
      refine foldl_preserve
        (fun e => storeView e = storeView env ∧ ∀ r ∈ e.records, Q r)
        _ (findEnabledByAgentID env "global") ?_ env ⟨rfl, hrec⟩
      intro config hc e he
      have hQc := hQ config hc
      have key : ∀ (e2 : AlertEnv) (ty : String) (v thr : ℚ) (dd : Int) (b : Bool),
          (storeView e2 = storeView env ∧ ∀ r ∈ e2.records, Q r) →
          (storeView (if b then checkAlert config ag ty v thr dd now e2 else e2)
              = storeView env ∧
            ∀ r ∈ (if b then checkAlert config ag ty v thr dd now e2 else e2).records, Q r) := by
        intro e2 ty v thr dd b hb
        cases b with
        | false => simpa using hb
        | true =>
          simp only [if_true]
          exact ⟨(storeView_checkAlert config ag ty v thr dd now e2).trans hb.1,
            checkAlert_inv Q config ag ty v thr dd now e2 hQc hb.2⟩
      exact key _ "disk" dsk _ _ _ (key _ "memory" mem _ _ _ (key _ "cpu" cpu _ _ _ he))

theorem CheckMonitorAlerts_inv (Q : AlertRecord → Prop) (now : Int) (env env' : AlertEnv)
    (hQ : ∀ c ∈ findEnabledByAgentID env "global", ∀ rr : AlertRecord,
      rr.configID = c.id → Q rr)
    (hrec : ∀ r ∈ env.records, Q r)
    (h : CheckMonitorAlerts now env = .ok env') :
    storeView env' = storeView env ∧ ∀ r ∈ env'.records, Q r := by
  unfold CheckMonitorAlerts at h
  split at h
  · cases h
  · injection h with h2
    subst h2
    refine foldl_preserve
      (fun e => storeView e = storeView env ∧ ∀ r ∈ e.records, Q r)
      _ (findEnabledByAgentID env "global") ?_ env ⟨rfl, hrec⟩
    intro config hc e he
    have hQc := hQ config hc
    have kcert : ∀ e2 : AlertEnv,
        (storeView e2 = storeView env ∧ ∀ r ∈ e2.records, Q r) →
        (storeView (if config.rules.certEnabled then checkCertificateAlerts config now e2
            else e2) = storeView env ∧
          ∀ r ∈ (if config.rules.certEnabled then checkCertificateAlerts config now e2
            else e2).records, Q r) := by
      intro e2 hb
      cases hcert : config.rules.certEnabled with
      | false => simpa [hcert] using hb
      | true =>
        simp only [hcert, if_true]
        obtain ⟨h1, h2⟩ := checkCertificateAlerts_inv Q config now e2 hQc hb.2
        exact ⟨h1.trans hb.1, h2⟩
    have kserv : ∀ e2 : AlertEnv,
        (storeView e2 = storeView env ∧ ∀ r ∈ e2.records, Q r) →
        (storeView (if config.rules.serviceEnabled then checkServiceDownAlerts config now e2
            else e2) = storeView env ∧
          ∀ r ∈ (if config.rules.serviceEnabled then checkServiceDownAlerts config now e2
            else e2).records, Q r) := by
      intro e2 hb
      cases hs2 : config.rules.serviceEnabled with
      | false => simpa [hs2] using hb
      | true =>
        simp only [hs2, if_true]
        obtain ⟨h1, h2⟩ := checkServiceDownAlerts_inv Q config now e2 hQc hb.2
        exact ⟨h1.trans hb.1, h2⟩
    have koff : ∀ e2 : AlertEnv,
        (storeView e2 = storeView env ∧ ∀ r ∈ e2.records, Q r) →
        (storeView (if config.rules.agentOfflineEnabled then
            checkAgentOfflineAlerts config now e2 else e2) = storeView env ∧
          ∀ r ∈ (if config.rules.agentOfflineEnabled then
            checkAgentOfflineAlerts config now e2 else e2).records, Q r) := by
      intro e2 hb
      cases ho : config.rules.agentOfflineEnabled with
      | false => simpa [ho] using hb
      | true =>
        simp only [ho, if_true]
        obtain ⟨h1, h2⟩ := checkAgentOfflineAlerts_inv Q config now e2 hQc hb.2
        exact ⟨h1.trans hb.1, h2⟩
    exact koff _ (kserv _ (kcert _ he))

/-! ## C8: deleting a configuration purges its state and stops its records -/

theorem runTick_inv (Q : AlertRecord → Prop) (id : String) (env : AlertEnv) (t : Tick)
    (hcfg : ∀ c ∈ env.configs, c.id ≠ id)
    (hQne : ∀ rr : AlertRecord, rr.configID ≠ id → Q rr)
    (hrec : ∀ r ∈ env.records, Q r) :
    (∀ c ∈ (runTick env t).configs, c.id ≠ id) ∧ (∀ r ∈ (runTick env t).records, Q r) := by
  cases t with
  | metrics mt =>
    simp only [runTick]
    cases h : CheckMetrics mt.agentID mt.cpu mt.memory mt.disk mt.now env with
    | error e => exact ⟨hcfg, hrec⟩
    | ok e' =>
      obtain ⟨hsv, hr⟩ := CheckMetrics_inv Q mt.agentID mt.cpu mt.memory mt.disk mt.now env e'
        (fun c hc rr hrr => hQne rr (by rw [hrr]; exact hcfg c (List.mem_of_mem_filter hc)))
        hrec h
      have hconf : e'.configs = env.configs := congrArg (fun p => p.2.2.1) hsv
      refine ⟨?_, hr⟩
      rw [hconf]
      exact hcfg
  | monitors nw =>
    simp only [runTick]
    cases h : CheckMonitorAlerts nw env with
    | error e => exact ⟨hcfg, hrec⟩
    | ok e' =>
      obtain ⟨hsv, hr⟩ := CheckMonitorAlerts_inv Q nw env e'
        (fun c hc rr hrr => hQne rr (by rw [hrr]; exact hcfg c (List.mem_of_mem_filter hc)))
        hrec h
      have hconf : e'.configs = env.configs := congrArg (fun p => p.2.2.1) hsv
      refine ⟨?_, hr⟩
      rw [hconf]
      exact hcfg
  | observe ags mh ma => exact ⟨hcfg, hrec⟩

theorem runTicks_inv (Q : AlertRecord → Prop) (id : String) (ticks : List Tick)
    (hQne : ∀ rr : AlertRecord, rr.configID ≠ id → Q rr) :
    ∀ env : AlertEnv, (∀ c ∈ env.configs, c.id ≠ id) → (∀ r ∈ env.records, Q r) →
      (∀ c ∈ (runTicks ticks env).configs, c.id ≠ id) ∧
      (∀ r ∈ (runTicks ticks env).records, Q r) := by
  induction ticks with
  | nil => intro env hcfg hrec; exact ⟨hcfg, hrec⟩
  | cons t ts ih =>
    intro env hcfg hrec
    obtain ⟨hcfg', hrec'⟩ := runTick_inv Q id env t hcfg hQne hrec
    simpa only [runTicks, List.foldl_cons] using ih (runTick env t) hcfg' hrec'

/-- C8: after `DeleteAlertConfig id`, no state-table entry for that config
id remains, every entry for another config is untouched and nothing else
appears, and no subsequent sequence of evaluation ticks ever creates
another `AlertRecord` for that config id (every record after the ticks is
either a pre-existing row or belongs to another config). -/
theorem deleteConfig_purges_and_stops_records (id : String) (env : AlertEnv)
    (ticks : List Tick) :
    (∀ p ∈ (DeleteAlertConfig id env).states, p.2.configID ≠ id) ∧
    (∀ p ∈ env.states, p.2.configID ≠ id → p ∈ (DeleteAlertConfig id env).states) ∧
    (∀ p ∈ (DeleteAlertConfig id env).states, p ∈ env.states) ∧
    (∀ r ∈ (runTicks ticks (DeleteAlertConfig id env)).records,
      r ∈ env.records ∨ r.configID ≠ id) := by
  refine ⟨?_, ?_, ?_, ?_⟩
  · intro p hp
    have hp' : p ∈ env.states.filter (fun q => q.2.configID != id) := hp
    rw [List.mem_filter] at hp'
    simpa using hp'.2
  · intro p hp hne
    show p ∈ env.states.filter (fun q => q.2.configID != id)
    rw [List.mem_filter]
    exact ⟨hp, by simpa using hne⟩
  · intro p hp
    have hp' : p ∈ env.states.filter (fun q => q.2.configID != id) := hp
    exact (List.mem_filter.mp hp').1
  · refine (runTicks_inv (fun r => r ∈ env.records ∨ r.configID ≠ id) id ticks
      (fun rr h => Or.inr h) (DeleteAlertConfig id env) ?_ ?_).2
    · intro c hc
      have hc' : c ∈ env.configs.filter (fun q => q.id != id) := hc
      rw [List.mem_filter] at hc'
      simpa using hc'.2
    · intro r hr
      exact Or.inl hr

/-- A second global configuration (id `c2`) with a cpu rule. -/
def cfgC8b : AlertConfig :=
  { id := "c2", agentID := "global", name := "g2", enabled := true
    createdAt := 0, updatedAt := 0
    rules := { rulesOff with cpuEnabled := true, cpuThreshold := 80, cpuDuration := 0 } }

/-- A persisted record belonging to config `c1`. -/
def recC8 : AlertRecord :=
  { id := 1, agentID := "a1", configID := "c1", configName := "g", alertType := "cpu"
    message := "m", threshold := 80, actualValue := 95, level := "warning"
    status := "firing", firedAt := 0, resolvedAt := 0, createdAt := 0, updatedAt := 0 }

/-- Environment with state entries and a record for config `c1` plus an
unrelated config `c2`. -/
def envC8 : AlertEnv :=
  { envEmpty with
      states := [(numKey cfgC1 "cpu", stC2), ("global:c2:cpu", { stC2 with configID := "c2" })]
      records := [recC8]
      nextRecordID := 2
      configs := [cfgC1, cfgC8b]
      agents := [agentA] }

/-- Witness for C8 on a concrete two-config environment followed by a
metrics tick. -/
theorem deleteConfig_purges_and_stops_records_witness :
    (("global:c2:cpu", { stC2 with configID := "c2" })
        ∈ (DeleteAlertConfig "c1" envC8).states) ∧
    (∀ p ∈ (DeleteAlertConfig "c1" envC8).states, p.2.configID ≠ "c1") ∧
    (∀ r ∈ (runTicks
        [Tick.metrics { agentID := "a1", cpu := 99, memory := 0, disk := 0, now := 5000 }]
        (DeleteAlertConfig "c1" envC8)).records,
      r ∈ envC8.records ∨ r.configID ≠ "c1") :=
  ⟨(deleteConfig_purges_and_stops_records "c1" envC8 []).2.1 _ (by decide) (by decide),
   (deleteConfig_purges_and_stops_records "c1" envC8 []).1,
   (deleteConfig_purges_and_stops_records "c1" envC8
      [Tick.metrics { agentID := "a1", cpu := 99, memory := 0, disk := 0, now := 5000 }]).2.2.2⟩

/-! ## C3: only global configurations are evaluated -/

/-- An enabled agent-scoped configuration with a cpu rule. -/
def cfgScoped : AlertConfig :=
  { id := "c3", agentID := "a1", name := "scoped", enabled := true
    createdAt := 0, updatedAt := 0
    rules := { rulesOff with cpuEnabled := true, cpuThreshold := 50, cpuDuration := 0 } }

/-- Environment whose only configuration is agent-scoped. -/
def envC3 : AlertEnv := { envEmpty with configs := [cfgScoped], agents := [agentA] }

/-- Counterexample to C3: an enabled agent-scoped configuration whose own
agent reports a breaching cpu value (99 over threshold 50, zero duration)
is never evaluated — the pass returns with the state table and the record
table untouched. -/
theorem agentScopedConfig_ignored_cex :
    (CheckMetrics "a1" 99 0 0 5000 envC3).toOption = some envC3 ∧
    cfgScoped.enabled = true ∧ cfgScoped.agentID = "a1" ∧
    cfgScoped.rules.cpuEnabled = true ∧ cfgScoped.rules.cpuThreshold ≤ 99 ∧
    envC3.states = [] ∧ envC3.records = [] := by decide

/-- Every evaluation of `checkAlert` stamps the key's state entry with the
evaluation time. -/
theorem checkAlert_writes_lastCheckTime (config : AlertConfig) (agent : Agent)
    (alertType : String) (v thr : ℚ) (d now : Int) (env : AlertEnv) :
    ∃ s', getState (checkAlert config agent alertType v thr d now env).states
      (numKey config alertType) = some s' ∧ s'.lastCheckTime = now := by
  cases hg : getState env.states (numKey config alertType) with
  | none =>
    simp only [checkAlert, hg]
    split_ifs <;>
      first
        | exact ⟨_, getState_putState_self _ _ _, rfl⟩
        | exact ⟨_, getState_putState_self _ _ _,
            (fireAlert_fst_fields config agent _ now env).2.2.2.2.2.2.1⟩
  | some st =>
    simp only [checkAlert, hg]
    split_ifs <;>
      first
        | exact ⟨_, getState_putState_self _ _ _, rfl⟩
        | exact ⟨_, getState_putState_self _ _ _,
            (fireAlert_fst_fields config agent _ now env).2.2.2.2.2.2.1⟩

/-- `fireAlert` never touches the state map. -/
theorem fireAlert_states_eq (config : AlertConfig) (agent : Agent) (s : AlertState)
    (now : Int) (env : AlertEnv) :
    (fireAlert config agent s now env).2.states = env.states := by
  cases hc : env.createFails <;> simp [fireAlert, createAlertRecord, hc]

/-- `resolveAlert` never touches the state map. -/
theorem resolveAlert_states_eq (config : AlertConfig) (s : AlertState) (now : Int)
    (env : AlertEnv) :
    (resolveAlert config s now env).2.states = env.states := by
  simp only [resolveAlert]
  split
  · cases hg : getLatestAlertRecord env config.id s.alertType with
    | none => simp [hg]
    | some ex =>
      simp only [hg, updateAlertRecord]
      split
      · rfl
      · rfl
  · rfl

/-- `checkAlert` writes only at its own state-map key. -/
theorem checkAlert_getState_other (config : AlertConfig) (agent : Agent) (alertType : String)
    (v thr : ℚ) (d now : Int) (env : AlertEnv) (k : String)
    (hk : k ≠ numKey config alertType) :
    getState (checkAlert config agent alertType v thr d now env).states k
      = getState env.states k := by
  cases hg : getState env.states (numKey config alertType) with
  | none =>
    simp only [checkAlert, hg]
    split_ifs <;>
      first
        | exact getState_putState_ne _ _ _ _ hk
        | rw [getState_putState_ne _ _ _ _ hk, fireAlert_states_eq]
  | some st =>
    simp only [checkAlert, hg]
    split_ifs <;>
      first
        | exact getState_putState_ne _ _ _ _ hk
        | rw [getState_putState_ne _ _ _ _ hk, fireAlert_states_eq]
        | rw [getState_putState_ne _ _ _ _ hk, resolveAlert_states_eq]

/-- A state entry stamped with the pass time survives any further
`checkAlert` of the same pass: an evaluation at another key leaves it, and
one at the same key re-stamps it. -/
theorem checkAlert_keeps_stamp (config : AlertConfig) (agent : Agent) (alertType : String)
    (v thr : ℚ) (d now : Int) (env : AlertEnv) (K : String)
    (h : ∃ s', getState env.states K = some s' ∧ s'.lastCheckTime = now) :
    ∃ s', getState (checkAlert config agent alertType v thr d now env).states K = some s' ∧
      s'.lastCheckTime = now := by
  by_cases hk : K = numKey config alertType
  · subst hk
    exact checkAlert_writes_lastCheckTime config agent alertType v thr d now env
  · obtain ⟨s', hs', ht⟩ := h
    refine ⟨s', ?_, ht⟩
    rw [checkAlert_getState_other config agent alertType v thr d now env K hk]
    exact hs'

/-- The loop body of `CheckMetrics` (one enabled global configuration:
conditional cpu, memory and disk checks), named for the evaluation
lemmas. -/
def checkMetricsStep (agent : Agent) (cpu memory disk : ℚ) (now : Int)
    (e : AlertEnv) (config : AlertConfig) : AlertEnv :=
  let e :=
    if config.rules.cpuEnabled then
      checkAlert config agent "cpu" cpu config.rules.cpuThreshold
        config.rules.cpuDuration now e
    else e
  let e :=
    if config.rules.memoryEnabled then
      checkAlert config agent "memory" memory config.rules.memoryThreshold
        config.rules.memoryDuration now e
    else e
  if config.rules.diskEnabled then
    checkAlert config agent "disk" disk config.rules.diskThreshold
      config.rules.diskDuration now e
  else e

/-- A conditional `checkAlert` of the pass keeps a pass-time stamp. -/
theorem condCheck_keeps_stamp (agent : Agent) (config : AlertConfig) (alertType : String)
    (v thr : ℚ) (d now : Int) (K : String) (b : Bool) (e : AlertEnv)
    (h : ∃ s', getState e.states K = some s' ∧ s'.lastCheckTime = now) :
    ∃ s', getState (if b then checkAlert config agent alertType v thr d now e else e).states K
        = some s' ∧ s'.lastCheckTime = now := by
  cases b with
  | false => simpa using h
  | true => simpa using checkAlert_keeps_stamp config agent alertType v thr d now e K h

/-- One `CheckMetrics` body step keeps any pass-time stamp. -/
theorem checkMetricsStep_keeps_stamp (agent : Agent) (cpu mem dsk : ℚ) (now : Int)
    (config : AlertConfig) (K : String) (e : AlertEnv)
    (h : ∃ s', getState e.states K = some s' ∧ s'.lastCheckTime = now) :
    ∃ s', getState (checkMetricsStep agent cpu mem dsk now e config).states K = some s' ∧
      s'.lastCheckTime = now := by
  unfold checkMetricsStep
  exact condCheck_keeps_stamp agent config "disk" dsk _ _ now K _ _
    (condCheck_keeps_stamp agent config "memory" mem _ _ now K _ _
      (condCheck_keeps_stamp agent config "cpu" cpu _ _ now K _ _ h))

/-- The body step for a configuration stamps the state entry of each of its
enabled numeric rules with the pass time. -/
theorem checkMetricsStep_stamps_self (agent : Agent) (cpu mem dsk : ℚ) (now : Int)
    (g : AlertConfig) (e : AlertEnv) :
    (g.rules.cpuEnabled = true →
      ∃ s', getState (checkMetricsStep agent cpu mem dsk now e g).states (numKey g "cpu")
          = some s' ∧ s'.lastCheckTime = now) ∧
    (g.rules.memoryEnabled = true →
      ∃ s', getState (checkMetricsStep agent cpu mem dsk now e g).states (numKey g "memory")
          = some s' ∧ s'.lastCheckTime = now) ∧
    (g.rules.diskEnabled = true →
      ∃ s', getState (checkMetricsStep agent cpu mem dsk now e g).states (numKey g "disk")
          = some s' ∧ s'.lastCheckTime = now) := by
  refine ⟨fun hc => ?_, fun hm => ?_, fun hd => ?_⟩
  · simp only [checkMetricsStep]
    rw [if_pos hc]
    exact condCheck_keeps_stamp agent g "disk" dsk _ _ now _ _ _
      (condCheck_keeps_stamp agent g "memory" mem _ _ now _ _ _
        (checkAlert_writes_lastCheckTime g agent "cpu" cpu _ _ now e))
  · simp only [checkMetricsStep]
    rw [if_pos hm]
    exact condCheck_keeps_stamp agent g "disk" dsk _ _ now _ _ _
      (checkAlert_writes_lastCheckTime g agent "memory" mem _ _ now _)
  · simp only [checkMetricsStep]
    rw [if_pos hd]
    exact checkAlert_writes_lastCheckTime g agent "disk" dsk _ _ now _

/-- Folding the `CheckMetrics` body over any configuration list containing
`g` stamps the state entry of each of `g`'s enabled numeric rules. -/
theorem metricsFold_stamps (agent : Agent) (cpu mem dsk : ℚ) (now : Int) (g : AlertConfig)
    (l : List AlertConfig) :
    ∀ env : AlertEnv, g ∈ l →
      (g.rules.cpuEnabled = true →
        ∃ s', getState (l.foldl (checkMetricsStep agent cpu mem dsk now) env).states
            (numKey g "cpu") = some s' ∧ s'.lastCheckTime = now) ∧
      (g.rules.memoryEnabled = true →
        ∃ s', getState (l.foldl (checkMetricsStep agent cpu mem dsk now) env).states
            (numKey g "memory") = some s' ∧ s'.lastCheckTime = now) ∧
      (g.rules.diskEnabled = true →
        ∃ s', getState (l.foldl (checkMetricsStep agent cpu mem dsk now) env).states
            (numKey g "disk") = some s' ∧ s'.lastCheckTime = now) := by
  induction l with
  | nil => intro env hg; cases hg
  | cons c cs ih =>
    intro env hg
    rw [List.foldl_cons]
    rcases List.mem_cons.mp hg with hgc | hgs
    · subst hgc
      obtain ⟨k1, k2, k3⟩ := checkMetricsStep_stamps_self agent cpu mem dsk now g env
      refine ⟨fun hc => ?_, fun hm => ?_, fun hd => ?_⟩
      · exact foldl_preserve
          (fun e => ∃ s', getState e.states (numKey g "cpu") = some s' ∧
            s'.lastCheckTime = now)
          _ cs (fun cfg _ e he => checkMetricsStep_keeps_stamp agent cpu mem dsk now cfg _ e he)
          _ (k1 hc)
      · exact foldl_preserve
          (fun e => ∃ s', getState e.states (numKey g "memory") = some s' ∧
            s'.lastCheckTime = now)
          _ cs (fun cfg _ e he => checkMetricsStep_keeps_stamp agent cpu mem dsk now cfg _ e he)
          _ (k2 hm)
      · exact foldl_preserve
          (fun e => ∃ s', getState e.states (numKey g "disk") = some s' ∧
            s'.lastCheckTime = now)
          _ cs (fun cfg _ e he => checkMetricsStep_keeps_stamp agent cpu mem dsk now cfg _ e he)
          _ (k3 hd)
    · exact ih (checkMetricsStep agent cpu mem dsk now env c) hgs

/-- C3 (amended): each evaluation pass fetches and evaluates exactly the
enabled configurations whose scope is `"global"`. (i) The fetched list
contains only enabled global configurations, so agent-scoped configs are
never fetched by either pass; (ii) a `CheckMetrics` pass never produces a
record for a config id outside that list; (iii) neither does a
`CheckMonitorAlerts` pass (certificate, service-down and agent-offline
transitions included), so no fire/resolve transition is ever produced for
an agent-scoped config; (iv) conversely every fetched configuration is
evaluated by `CheckMetrics` on every pass: each of its enabled
cpu/memory/disk rules leaves its state entry stamped with the pass time,
whatever the other configurations of the environment are. -/
theorem onlyGlobalConfigs_evaluated (id aid : String) (cpu mem dsk : ℚ) (now now2 : Int)
    (env env' env'' : AlertEnv) (g : AlertConfig) :
    (∀ c ∈ findEnabledByAgentID env "global", c.agentID = "global" ∧ c.enabled = true) ∧
    (CheckMetrics aid cpu mem dsk now env = .ok env' →
      (∀ c ∈ findEnabledByAgentID env "global", c.id ≠ id) →
      (∀ r ∈ env.records, r.configID ≠ id) →
      ∀ r ∈ env'.records, r.configID ≠ id) ∧
    (CheckMonitorAlerts now2 env = .ok env'' →
      (∀ c ∈ findEnabledByAgentID env "global", c.id ≠ id) →
      (∀ r ∈ env.records, r.configID ≠ id) →
      ∀ r ∈ env''.records, r.configID ≠ id) ∧
    (CheckMetrics aid cpu mem dsk now env = .ok env' →
      g ∈ findEnabledByAgentID env "global" →
      (g.rules.cpuEnabled = true →
        ∃ s', getState env'.states (numKey g "cpu") = some s' ∧ s'.lastCheckTime = now) ∧
      (g.rules.memoryEnabled = true →
        ∃ s', getState env'.states (numKey g "memory") = some s' ∧ s'.lastCheckTime = now) ∧
      (g.rules.diskEnabled = true →
        ∃ s', getState env'.states (numKey g "disk") = some s' ∧ s'.lastCheckTime = now)) := by
  refine ⟨?_, ?_, ?_, ?_⟩
  · intro c hc
    simp only [findEnabledByAgentID, List.mem_filter, Bool.and_eq_true, beq_iff_eq] at hc
    exact hc.2
  · intro h hid hrec
    exact (CheckMetrics_inv (fun r => r.configID ≠ id) aid cpu mem dsk now env env'
      (fun c hc rr hrr => by simpa [hrr] using hid c hc) hrec h).2
  · intro h hid hrec
    exact (CheckMonitorAlerts_inv (fun r => r.configID ≠ id) now2 env env''
      (fun c hc rr hrr => by simpa [hrr] using hid c hc) hrec h).2
  · intro h hg
    unfold CheckMetrics at h
    split at h
    · cases h
    · cases hfind : findAgentById env aid with
      | none =>
        rw [hfind] at h
        cases h
      | some ag =>
        rw [hfind] at h
        injection h with h2
        subst h2
        exact metricsFold_stamps ag cpu mem dsk now g
          (findEnabledByAgentID env "global") env hg

/-- An enabled global configuration with only the cpu rule on. -/
def cfgC3g : AlertConfig :=
  { id := "g1", agentID := "global", name := "gg", enabled := true
    createdAt := 0, updatedAt := 0
    rules := { rulesOff with cpuEnabled := true, cpuThreshold := 80, cpuDuration := 60 } }

/-- Environment holding both the agent-scoped and the global configuration. -/
def envC3b : AlertEnv :=
  { envEmpty with configs := [cfgScoped, cfgC3g], agents := [agentA] }

/-- Witness for the amended C3: in an environment holding both a scoped and
a global configuration, the fetched list is global-only, neither pass yields
a record for the scoped id `c3`, and the global config `g1` is evaluated
(its cpu state entry stamped with the pass time). -/
theorem onlyGlobalConfigs_evaluated_witness :
    (∀ c ∈ findEnabledByAgentID envC3b "global", c.agentID = "global" ∧ c.enabled = true) ∧
    (∀ r ∈ envC3.records, r.configID ≠ "c3") ∧
    (∀ r ∈ envC3b.records, r.configID ≠ "c3") ∧
    (∃ s', getState (checkAlert cfgC3g agentA "cpu" 95 cfgC3g.rules.cpuThreshold
        cfgC3g.rules.cpuDuration 7000 envC3b).states (numKey cfgC3g "cpu") = some s' ∧
      s'.lastCheckTime = 7000) :=
  ⟨(onlyGlobalConfigs_evaluated "c3" "a1" 95 0 0 7000 1000 envC3b envC3b envC3b cfgC3g).1,
   (onlyGlobalConfigs_evaluated "c3" "a1" 99 0 0 5000 1000 envC3 envC3 envC3
      cfgScoped).2.1 rfl (by decide) (by decide),
   (onlyGlobalConfigs_evaluated "c3" "a1" 99 0 0 1000 1000 envC3b envC3b envC3b
      cfgScoped).2.2.1 rfl (by decide) (by decide),
   ((onlyGlobalConfigs_evaluated "x" "a1" 95 0 0 7000 1000 envC3b
      (checkAlert cfgC3g agentA "cpu" 95 cfgC3g.rules.cpuThreshold cfgC3g.rules.cpuDuration
        7000 envC3b) envC3b cfgC3g).2.2.2 rfl (by decide)).1 rfl⟩

/-! ## C9: what a load failure aborts, and what it does not -/

/-- A monitor whose agent identity row is missing. -/
def monC9bad : MonitorMetric :=
  { monitorId := "mb", agentId := "a2", target := "tb", status := "up"
    timestamp := 0, certExpiryTime := 1, certDaysLeft := 5 }

/-- Environment where the first monitored certificate belongs to an unknown
agent and the second to a known one. -/
def envC9 : AlertEnv :=
  { envEmpty with
      configs := [cfgCert]
      agents := [agentA]
      monitorsHTTP := [monC9bad, monC5] }

/-- Counterexample to C9: a `CheckMonitorAlerts` pass during which an
agent-identity load fails (monitor `mb` references the unknown agent `a2`)
does not abort — it completes and mutates the state table (one new cert
state for the other monitor). -/
theorem monitorPass_partialMutation_cex :
    (Except.toOption (CheckMonitorAlerts 1000 envC9)).map (fun e => e.states.length)
        = some 1 ∧
    envC9.states.length = 0 ∧
    findAgentById envC9 "a2" = none ∧
    monC9bad.certExpiryTime ≠ 0 := by decide

/-- C9 (amended): a failure to load the alert configurations aborts either
evaluation pass with the environment untouched, and in `CheckMetrics` a
failure to load the agent identity likewise aborts before any state is
touched; per-monitor agent-identity failures inside `CheckMonitorAlerts`
only skip that monitor (see the counterexample). -/
theorem loadFailure_aborts_pass (aid : String) (cpu mem dsk : ℚ) (now now2 : Int)
    (env : AlertEnv) :
    (env.configsLoadFails = true →
      CheckMetrics aid cpu mem dsk now env = .error () ∧
      runTick env (Tick.metrics
        { agentID := aid, cpu := cpu, memory := mem, disk := dsk, now := now }) = env) ∧
    (env.configsLoadFails = false → findAgentById env aid = none →
      CheckMetrics aid cpu mem dsk now env = .error () ∧
      runTick env (Tick.metrics
        { agentID := aid, cpu := cpu, memory := mem, disk := dsk, now := now }) = env) ∧
    (env.configsLoadFails = true →
      CheckMonitorAlerts now2 env = .error () ∧
      runTick env (Tick.monitors now2) = env) := by
  refine ⟨fun h => ⟨?_, ?_⟩, fun h1 h2 => ⟨?_, ?_⟩, fun h => ⟨?_, ?_⟩⟩
  · unfold CheckMetrics
    rw [if_pos h]
  · have hm : CheckMetrics aid cpu mem dsk now env = .error () := by
      unfold CheckMetrics
      rw [if_pos h]
    simp only [runTick, hm]
  · unfold CheckMetrics
    rw [if_neg (by simp [h1]), h2]
  · have hm : CheckMetrics aid cpu mem dsk now env = .error () := by
      unfold CheckMetrics
      rw [if_neg (by simp [h1]), h2]
    simp only [runTick, hm]
  · unfold CheckMonitorAlerts
    rw [if_pos h]
  · have hm : CheckMonitorAlerts now2 env = .error () := by
      unfold CheckMonitorAlerts
      rw [if_pos h]
    simp only [runTick, hm]

/-- Environment whose configuration query fails. -/
def envC9f : AlertEnv := { envEmpty with configsLoadFails := true }

/-- Witness for the amended C9 at concrete failing environments. -/
theorem loadFailure_aborts_pass_witness :
    (CheckMetrics "a1" 95 0 0 1000 envC9f = .error () ∧
      runTick envC9f (Tick.metrics
        { agentID := "a1", cpu := 95, memory := 0, disk := 0, now := 1000 }) = envC9f) ∧
    (CheckMetrics "nobody" 95 0 0 1000 envEmpty = .error () ∧
      runTick envEmpty (Tick.metrics
        { agentID := "nobody", cpu := 95, memory := 0, disk := 0, now := 1000 }) = envEmpty) ∧
    (CheckMonitorAlerts 2000 envC9f = .error () ∧
      runTick envC9f (Tick.monitors 2000) = envC9f) :=
  ⟨(loadFailure_aborts_pass "a1" 95 0 0 1000 2000 envC9f).1 rfl,
   (loadFailure_aborts_pass "nobody" 95 0 0 1000 2000 envEmpty).2.1 rfl rfl,
   (loadFailure_aborts_pass "a1" 95 0 0 1000 2000 envC9f).2.2 rfl⟩
